import Mathlib

/-! ESP32 LED sync tester: embedding of `src/main.cpp`.

The sketch keeps all of its state in global variables.  They are gathered in
one record, `State`, and every routine of the sketch becomes a function on
that record.  Hardware effects (`digitalWrite`) and entries into the two
animation handlers are appended to `State.trace` in program order, so that
what was driven on a line, and how often a handler ran, can be read back.

Conventions
* `unsigned long` is 32 bits wide on the ESP32: such values are naturals
  below `W = 2^32`, and the arithmetic on them is taken modulo `W`.
* `int currentFastLED` is an `Int`; `%` on `int` is C++ truncated remainder.
* `millis()`, `micros()` and `digitalRead(...)` are inputs of the routine that
  calls them.
* An out-of-bounds read of `LED_PINS` and a division by zero have no defined
  result in C++: the routines that can reach one return `Option`.
* `volatile float measuredFrameRate` holds rational values (`FloatVal`).  The
  expression `1000000.0 / vsyncInterval` is a division in `double` whose result
  is converted to `float`: both steps round to nearest, ties to even
  (`roundBinary` with 53 and with 24 significand bits).
-/

namespace LedSync

/-! ## Machine arithmetic -/

/-- Modulus of a 32-bit `unsigned long`. -/
def W : Nat := 4294967296

/-- Subtraction of two `unsigned long` values, `a - b`, modulo `2^32`. -/
def usub (a b : Nat) : Nat := (a % W + W - b % W) % W

/-- Multiplication of two `unsigned long` values modulo `2^32`. -/
def umul (a b : Nat) : Nat := (a * b) % W

/-- Conversion of a signed `long` to `unsigned long` (value modulo `2^32`). -/
def toUnsignedLong (v : Int) : Nat := (v % (W : Int)).toNat

/-- Value of a `float` variable: a finite number or `+inf`. -/
inductive FloatVal
  | val (q : ℚ)
  | posInf
  deriving DecidableEq, Repr

/-- Binary logarithm of `n`, rounded down, by repeated halving (the first
argument bounds the number of halvings). -/
def log2Fuel : Nat → Nat → Nat
  | 0, _ => 0
  | fuel + 1, n => if 2 ≤ n then log2Fuel fuel (n / 2) + 1 else 0

/-- Binary logarithm of `n`, rounded down (0 for `n = 0`). -/
def log2 (n : Nat) : Nat := log2Fuel n n

/-- The exponent `e` with `2^e ≤ n / d < 2^(e+1)`, for positive `n` and `d`. -/
def floorLog2 (n d : Nat) : Int :=
  let a : Int := (log2 n : Int) - (log2 d : Int)
  if d * 2 ^ a.toNat ≤ n * 2 ^ (-a).toNat then a else a - 1

/-- The integer nearest to `n / d`, the even one of the two when `n / d` lies
half-way between them. -/
def roundHalfEven (n d : Nat) : Nat :=
  let q := n / d
  let r := n % d
  if 2 * r < d then q else if d < 2 * r then q + 1 else if q % 2 = 0 then q else q + 1

/-- IEEE 754 rounding of the positive quotient `n / d` to a binary format with
`p` significand bits, to nearest with ties to even: the result is the pair
`(m, k)` standing for `m * 2^k`, with `2^(p-1) ≤ m ≤ 2^p`.  The exponent range
is not bounded: the quotients `1000000 / x` with `1 ≤ x < 2^32` lie between
`2^-13` and `2^20`, where neither `float` nor `double` overflows or is
subnormal. -/
def roundBinary (p n d : Nat) : Nat × Int :=
  let s : Int := (p : Int) - 1 - floorLog2 n d
  (roundHalfEven (n * 2 ^ s.toNat) (d * 2 ^ (-s).toNat), -s)

/-- The rational number `m * 2^k` that a pair `(m, k)` stands for. -/
def dyadic (v : Nat × Int) : ℚ := (v.1 : ℚ) * 2 ^ v.2.toNat / 2 ^ (-v.2).toNat

/-- Conversion of a positive `double` value `m * 2^k` to `float` (24
significand bits). -/
def toFloat (v : Nat × Int) : Nat × Int :=
  roundBinary 24 (v.1 * 2 ^ v.2.toNat) (2 ^ (-v.2).toNat)

/-- The expression `1000000.0 / x` for an `unsigned long` x, as stored in a
`float`: x is converted to `double` (exactly), the division is done in
`double` (53 significand bits), and the result is converted to `float`;
dividing by zero gives `+inf`. -/
def floatDiv1e6 (x : Nat) : FloatVal :=
  if x = 0 then FloatVal.posInf
  else FloatVal.val (dyadic (toFloat (roundBinary 53 1000000 x)))

/-! ## Pins and levels -/

/-- Logic level `HIGH`. -/
def HIGH : Bool := true

/-- Logic level `LOW`. -/
def LOW : Bool := false

/-- GPIO numbers of the twelve ring LEDs, `LED_PINS[12]`. -/
def LED_PINS : List Nat := [13, 14, 27, 26, 25, 33, 32, 16, 17, 18, 19, 23]

/-- GPIO number of the auxiliary output, `OUTPUT_PIN`. -/
def OUTPUT_PIN : Nat := 4

/-- What the program does to the outside, in program order. -/
inductive Event
  | digitalWrite (pin : Nat) (level : Bool)
  | enterFastCircle
  | enterFrameCircle
  deriving DecidableEq, Repr

/-! ## Global variables -/

/-- The global variables of the sketch, and the trace of its effects. -/
structure State where
  fastCircleInterval : Nat
  frameRate : Nat
  fastCircleEnabled : Bool
  frameCircleEnabled : Bool
  d4OutputEnabled : Bool
  vsyncLockEnabled : Bool
  vsyncDetectionEnabled : Bool
  vsyncActive : Bool
  lastVsyncTime : Nat
  vsyncInterval : Nat
  measuredFrameRate : FloatVal
  fieldOdd : Bool
  lastFieldChangeTime : Nat
  oddFieldDuration : Nat
  evenFieldDuration : Nat
  vsyncDetected : Bool
  vsyncLockTrigger : Bool
  lastFastCircleUpdate : Nat
  lastFrameCircleUpdate : Nat
  currentFastLED : Int
  frameCirclePhase : Bool
  frameInterval : Nat
  trace : List Event
  deriving DecidableEq, Repr

/-- The globals as their initialisers leave them (`frameInterval` has no
initialiser and starts at zero); nothing has been written to a pin yet. -/
def initState : State where
  fastCircleInterval := 1
  frameRate := 24
  fastCircleEnabled := true
  frameCircleEnabled := true
  d4OutputEnabled := false
  vsyncLockEnabled := false
  vsyncDetectionEnabled := true
  vsyncActive := false
  lastVsyncTime := 0
  vsyncInterval := 0
  measuredFrameRate := FloatVal.val 0
  fieldOdd := false
  lastFieldChangeTime := 0
  oddFieldDuration := 0
  evenFieldDuration := 0
  vsyncDetected := false
  vsyncLockTrigger := false
  lastFastCircleUpdate := 0
  lastFrameCircleUpdate := 0
  currentFastLED := 0
  frameCirclePhase := false
  frameInterval := 0
  trace := []

/-- One call `digitalWrite(pin, level)`. -/
def digitalWrite (s : State) (pin : Nat) (level : Bool) : State :=
  { s with trace := s.trace ++ [Event.digitalWrite pin level] }

/-! ## Animation handlers -/

/-- The loop `for (i = 0; i < 12; i++) digitalWrite(LED_PINS[i], LOW)`. -/
def allLedsLow (s : State) : State :=
  LED_PINS.foldl (fun acc pin => digitalWrite acc pin LOW) s

/-- Function `handleFastCircle`: all LEDs off, the current one on, then the
position is decremented modulo 12.  `none` when `LED_PINS[currentFastLED]`
is read out of bounds. -/
def handleFastCircle (s : State) : Option State :=
  let s0 := { s with trace := s.trace ++ [Event.enterFastCircle] }
  let s1 := allLedsLow s0
  if 0 ≤ s1.currentFastLED then
    match LED_PINS[s1.currentFastLED.toNat]? with
    | none => none
    | some pin =>
      let s2 := digitalWrite s1 pin HIGH
      some { s2 with currentFastLED := Int.tmod (s2.currentFastLED - 1 + 12) 12 }
  else none

/-- Function `handleFrameCircle`: the four frame LEDs off, the pair chosen by
`frameCirclePhase` on, the auxiliary output driven when enabled, then the
phase is inverted. -/
def handleFrameCircle (s : State) : State :=
  let s0 := { s with trace := s.trace ++ [Event.enterFrameCircle] }
  let s1 := digitalWrite s0 (LED_PINS.getD 0 0) LOW
  let s2 := digitalWrite s1 (LED_PINS.getD 6 0) LOW
  let s3 := digitalWrite s2 (LED_PINS.getD 3 0) LOW
  let s4 := digitalWrite s3 (LED_PINS.getD 9 0) LOW
  let s5 :=
    if s4.frameCirclePhase then
      let a := digitalWrite s4 (LED_PINS.getD 3 0) HIGH
      let b := digitalWrite a (LED_PINS.getD 9 0) HIGH
      if b.d4OutputEnabled then digitalWrite b OUTPUT_PIN LOW else b
    else
      let a := digitalWrite s4 (LED_PINS.getD 0 0) HIGH
      let b := digitalWrite a (LED_PINS.getD 6 0) HIGH
      if b.d4OutputEnabled then digitalWrite b OUTPUT_PIN HIGH else b
  { s5 with frameCirclePhase := !s5.frameCirclePhase }

/-- Function `updateFrameInterval`: `frameInterval = 1000 / (frameRate * 2)`
in `unsigned long`.  `none` when the divisor is zero. -/
def updateFrameInterval (s : State) : Option State :=
  if umul s.frameRate 2 = 0 then none
  else some { s with frameInterval := 1000 / umul s.frameRate 2 }

/-! ## The poll loop -/

/-- The block of `loop` guarded by `if (vsyncLockTrigger)`. -/
def lockReset (s : State) (currentTime : Nat) : State :=
  if s.vsyncLockTrigger then
    let a := { s with vsyncLockTrigger := false }
    let b :=
      if a.fastCircleEnabled then
        { a with currentFastLED := 0, lastFastCircleUpdate := currentTime }
      else a
    if b.frameCircleEnabled then
      { b with frameCirclePhase := false, lastFrameCircleUpdate := currentTime }
    else b
  else s

/-- The test `fastCircleEnabled && (currentTime - lastFastCircleUpdate >= fastCircleInterval)`. -/
def fastDue (s : State) (currentTime : Nat) : Bool :=
  s.fastCircleEnabled && decide (usub currentTime s.lastFastCircleUpdate ≥ s.fastCircleInterval)

/-- The test `frameCircleEnabled && (currentTime - lastFrameCircleUpdate >= frameInterval)`. -/
def frameDue (s : State) (currentTime : Nat) : Bool :=
  s.frameCircleEnabled && decide (usub currentTime s.lastFrameCircleUpdate ≥ s.frameInterval)

/-- The fast-circle block of `loop`. -/
def fastStep (s : State) (currentTime : Nat) : Option State :=
  if fastDue s currentTime then
    (handleFastCircle s).map (fun r => { r with lastFastCircleUpdate := currentTime })
  else some s

/-- The frame-circle block of `loop`. -/
def frameStep (s : State) (currentTime : Nat) : State :=
  if frameDue s currentTime then
    { handleFrameCircle s with lastFrameCircleUpdate := currentTime }
  else s

/-- One iteration of `loop`, with `currentTime` the value read from `millis()`. -/
def loop (s : State) (currentTime : Nat) : Option State :=
  (fastStep (lockReset s currentTime) currentTime).map (fun r => frameStep r currentTime)

/-- Calls of `loop` at the clock readings `t0 + 1, ..., t0 + n` (32-bit clock). -/
def pollEach (s : State) (t0 : Nat) : Nat → Option State
  | 0 => some s
  | n + 1 => (pollEach s t0 n).bind (fun r => loop r ((t0 + (n + 1)) % W))

/-! ## Interrupt service routines -/

/-- Routine `vsyncISR`, with `currentTime` the value read from `micros()` and
`pinLevel` the value read from `digitalRead(VSYNC_PIN)`. -/
def vsyncISR (s : State) (currentTime : Nat) (pinLevel : Bool) : State :=
  if !s.vsyncDetectionEnabled then s
  else if pinLevel = LOW then
    let s1 :=
      if s.lastVsyncTime > 0 then
        let a := { s with vsyncInterval := usub currentTime s.lastVsyncTime }
        { a with measuredFrameRate := floatDiv1e6 a.vsyncInterval }
      else s
    let s2 := { s1 with lastVsyncTime := currentTime, vsyncActive := true, vsyncDetected := true }
    if s2.vsyncLockEnabled then { s2 with vsyncLockTrigger := true } else s2
  else { s with vsyncActive := false }

/-- Routine `fieldISR`, with `currentTime` the value read from `micros()` and
`pinLevel` the value read from `digitalRead(FIELD_PIN)`. -/
def fieldISR (s : State) (currentTime : Nat) (pinLevel : Bool) : State :=
  let currentFieldState : Bool := pinLevel = HIGH
  let s1 :=
    if s.lastFieldChangeTime > 0 then
      let fieldDuration := usub currentTime s.lastFieldChangeTime
      if s.fieldOdd then { s with oddFieldDuration := fieldDuration }
      else { s with evenFieldDuration := fieldDuration }
    else s
  { s1 with fieldOdd := currentFieldState, lastFieldChangeTime := currentTime }

/-- A run of `vsyncISR` over a sequence of (timestamp, level) notifications. -/
def vsyncEdges (s : State) (edges : List (Nat × Bool)) : State :=
  edges.foldl (fun acc e => vsyncISR acc e.1 e.2) s

/-- A run of `fieldISR` over a sequence of (timestamp, level) notifications. -/
def fieldEdges (s : State) (edges : List (Nat × Bool)) : State :=
  edges.foldl (fun acc e => fieldISR acc e.1 e.2) s

/-! ## Configuration requests -/

/-- Handler of `POST /api/fastCircle`: `enabled` is the text of the parameter
of that name when present, `interval` the result of `toInt()` on the
parameter `interval` when present. -/
def apiFastCircle (s : State) (enabled : Option String) (interval : Option Int) : State :=
  let s1 :=
    match enabled with
    | some v => { s with fastCircleEnabled := (v == "true") }
    | none => s
  match interval with
  | some v =>
    let a := { s1 with fastCircleInterval := toUnsignedLong v }
    if a.fastCircleInterval < 1 then { a with fastCircleInterval := 1 } else a
  | none => s1

/-- Handler of `POST /api/frameCircle`: each argument is the parameter of that
name when present, `frameRate` after `toInt()`. -/
def apiFrameCircle (s : State) (enabled : Option String) (frameRate : Option Int)
    (d4Output : Option String) (vsyncLock : Option String) : Option State :=
  let s1 :=
    match enabled with
    | some v => { s with frameCircleEnabled := (v == "true") }
    | none => s
  let s2 : Option State :=
    match frameRate with
    | some v =>
      let a := { s1 with frameRate := toUnsignedLong v }
      let b := if a.frameRate < 1 then { a with frameRate := 1 } else a
      let c := if b.frameRate > 120 then { b with frameRate := 120 } else b
      updateFrameInterval c
    | none => some s1
  s2.map (fun r =>
    let s3 :=
      match d4Output with
      | some v => { r with d4OutputEnabled := (v == "true") }
      | none => r
    match vsyncLock with
    | some v => { s3 with vsyncLockEnabled := (v == "true") }
    | none => s3)

/-! ## Runs used by the properties -/

/-- The function `handleFastCircle` applied `n` times in a row. -/
def fastCircleTicks (s : State) : Nat → Option State
  | 0 => some s
  | n + 1 => (fastCircleTicks s n).bind handleFastCircle

/-- Notifications of the inactive (`HIGH`) level at the given timestamps. -/
def highs (ts : List Nat) : List (Nat × Bool) := ts.map (fun t => (t, HIGH))

/-- The start-up state after `updateFrameInterval` (24 fps, 20 ms), with
lock-to-sync switched on, the sweep at position 7 and the phase at PairB. -/
def lockedState : State :=
  { initState with
    frameInterval := 20
    vsyncLockEnabled := true
    currentFastLED := 7
    frameCirclePhase := true }

/-- The start-up state after `updateFrameInterval`, with both tick stamps
6 ms before the 32-bit millisecond clock wraps. -/
def wrappedState : State :=
  { initState with
    frameInterval := 20
    lastFastCircleUpdate := 4294967290
    lastFrameCircleUpdate := 4294967290 }

/-- The scenario of the 24 fps check: the start-up state after
`updateFrameInterval` (half-period 20 ms) with the auxiliary output enabled;
the phase is PairA and the last frame tick is stamped at 0. -/
def frameScenario : State :=
  { initState with
    frameInterval := 20
    d4OutputEnabled := true }

/-- Notifications of the active (`LOW`) level at the given timestamps. -/
def lows (ts : List Nat) : List (Nat × Bool) := ts.map (fun t => (t, LOW))

/-- A state with its three sync-measurement fields replaced. -/
def withMeasurement (s : State) (last interval : Nat) (rate : FloatVal) : State :=
  { s with
    lastVsyncTime := last
    vsyncInterval := interval
    measuredFrameRate := rate }

/-- A state with the three flags an active edge raises when sync detection and
lock-to-sync are enabled. -/
def armed (s : State) : State :=
  { s with
    vsyncActive := true
    vsyncDetected := true
    vsyncLockTrigger := true }

/-- The start-up state with sync detection switched off and lock-to-sync
switched on, the sync line marked active. -/
def detectionOffState : State :=
  { initState with
    vsyncDetectionEnabled := false
    vsyncLockEnabled := true
    vsyncActive := true }

/-- The pins driven `HIGH` inside runs of `handleFastCircle`, in order: the
flag tells whether the events read so far end inside such a run. -/
def fastLitPins : Bool → List Event → List Nat
  | _, [] => []
  | _, Event.enterFastCircle :: tr => fastLitPins true tr
  | _, Event.enterFrameCircle :: tr => fastLitPins false tr
  | inFast, Event.digitalWrite pin level :: tr =>
    if inFast && level then pin :: fastLitPins inFast tr else fastLitPins inFast tr

/-- The ring positions lit by the fast sweep, in order (index of the pin in
`LED_PINS`). -/
def fastLitPositions (tr : List Event) : List Nat :=
  (fastLitPins false tr).map (fun pin => LED_PINS.indexOf pin)

/-- What one run of `handleFastCircle` at ring position `p` adds to the trace:
the entry, `LOW` on each of the twelve LEDs, then `HIGH` on the LED at `p`. -/
def sweepBlock (p : Nat) : List Event :=
  [Event.enterFastCircle] ++ LED_PINS.map (fun pin => Event.digitalWrite pin LOW)
    ++ [Event.digitalWrite (LED_PINS.getD p 0) HIGH]

/-- The ring positions visited by `n` fast ticks starting from position `p`. -/
def sweepPositions (p : Int) (n : Nat) : List Nat :=
  (List.range n).map (fun i => ((p - (i : Int)) % 12).toNat)

/-- What runs of `handleFastCircle` at the given ring positions, one after the
other, add to the trace. -/
def sweepTrace : List Nat → List Event
  | [] => []
  | p :: ps => sweepBlock p ++ sweepTrace ps

/-! ## Reading the trace -/

/-- Number of entries into `handleFrameCircle` recorded in a trace. -/
def frameCalls (tr : List Event) : Nat := tr.count Event.enterFrameCircle

/-- Number of entries into `handleFastCircle` recorded in a trace. -/
def fastCalls (tr : List Event) : Nat := tr.count Event.enterFastCircle

/-- The levels written to `OUTPUT_PIN`, in order. -/
def outputLevels (tr : List Event) : List Bool :=
  tr.filterMap (fun e =>
    match e with
    | Event.digitalWrite pin level => if pin = OUTPUT_PIN then some level else none
    | _ => none)

/-- The levels that `q` successive runs of `handleFrameCircle` drive on the
output when the first run starts in phase `p`: `HIGH` in phase PairA (false),
`LOW` in phase PairB (true), alternating. -/
def expectedLevels (p : Bool) (q : Nat) : List Bool :=
  (List.range q).map (fun i => !(xor p (decide (i % 2 = 1))))

/-! ## Machine arithmetic lemmas -/

theorem usub_add_mod (x d : Nat) : usub ((x + d) % W) x = d % W := by
  unfold usub W; omega

theorem usub_of_le (a b : Nat) (hba : b ≤ a) (ha : a < W) : usub a b = a - b := by
  unfold usub W at *; omega

theorem usub_self (a : Nat) : usub a a = 0 := by
  unfold usub W; omega

/-! ## Frame interval (C1) -/

theorem umul_two (f : Nat) (h2 : f ≤ 120) : umul f 2 = 2 * f := by
  unfold umul W; omega

theorem half_period_div (f : Nat) : 1000 / (2 * f) = 500 / f := by
  rw [← Nat.div_div_eq_div_mul]

theorem updateFrameInterval_eq (s : State)
    (h1 : 1 ≤ s.frameRate) (h2 : s.frameRate ≤ 120) :
    updateFrameInterval s = some { s with frameInterval := 500 / s.frameRate } := by
  have hne : 2 * s.frameRate ≠ 0 := by omega
  simp [updateFrameInterval, umul_two s.frameRate h2, half_period_div, hne]

/-- A state whose interval is the one `updateFrameInterval` computes from its
rate, the rate being in [1,120], has `frameInterval = 500 / frameRate`, which
is at least 4 and at most 500. -/
theorem frameInterval_of_update (s : State)
    (h1 : 1 ≤ s.frameRate) (h2 : s.frameRate ≤ 120)
    (hupd : updateFrameInterval s = some s) :
    s.frameInterval = 500 / s.frameRate ∧ 4 ≤ s.frameInterval ∧ s.frameInterval ≤ 500 := by
  rw [updateFrameInterval_eq s h1 h2] at hupd
  have h : 500 / s.frameRate = s.frameInterval :=
    congrArg State.frameInterval (Option.some.inj hupd)
  have hlo : 4 ≤ 500 / s.frameRate := by
    rw [Nat.le_div_iff_mul_le (by omega)]; omega
  have hhi : 500 / s.frameRate ≤ 500 := Nat.div_le_self _ _
  omega

/-- C1: for every `frameRate` f with 1 ≤ f ≤ 120, `updateFrameInterval` stores
`frameInterval = 500 / f` (floor), because the unsigned expression
`1000 / (f * 2)` equals `500 / f` for every such f. -/
theorem updateFrameInterval_half_period (s : State)
    (h1 : 1 ≤ s.frameRate) (h2 : s.frameRate ≤ 120) :
    updateFrameInterval s = some { s with frameInterval := 500 / s.frameRate }
      ∧ 1000 / umul s.frameRate 2 = 500 / s.frameRate := by
  refine ⟨updateFrameInterval_eq s h1 h2, ?_⟩
  rw [umul_two s.frameRate h2, half_period_div]

/-- C1 at the start-up rate: 24 frames per second give a half-period of 20 ms. -/
theorem updateFrameInterval_half_period_witness :
    (1 ≤ initState.frameRate ∧ initState.frameRate ≤ 120)
      ∧ updateFrameInterval initState = some { initState with frameInterval := 20 } :=
  ⟨by decide, (updateFrameInterval_half_period initState (by decide) (by decide)).1⟩

/-! ## Fast sweep position (C2) -/

theorem allLedsLow_eq (s : State) :
    allLedsLow s
      = { s with trace := s.trace ++ LED_PINS.map (fun p => Event.digitalWrite p LOW) } := by
  simp [allLedsLow, LED_PINS, digitalWrite]

/-- With the position inside the ring, `handleFastCircle` returns: it records
its entry, twelve writes of `LOW`, one write of `HIGH` to the current LED, and
moves the position one step down modulo 12. -/
theorem handleFastCircle_eq (s : State)
    (h0 : 0 ≤ s.currentFastLED) (h1 : s.currentFastLED < 12) :
    handleFastCircle s = some { s with
      trace := s.trace ++ [Event.enterFastCircle]
                ++ LED_PINS.map (fun p => Event.digitalWrite p LOW)
                ++ [Event.digitalWrite (LED_PINS.getD s.currentFastLED.toNat 0) HIGH],
      currentFastLED := (s.currentFastLED - 1) % 12 } := by
  obtain ⟨k, hk⟩ : ∃ k : Nat, s.currentFastLED = (k : Int) :=
    ⟨s.currentFastLED.toNat, by omega⟩
  have hk12 : k < 12 := by omega
  simp only [handleFastCircle, allLedsLow_eq, hk]
  interval_cases k <;> simp [LED_PINS, digitalWrite, Int.tmod, HIGH, LOW]

/-- C2: from a position p with 0 ≤ p < 12, `n` applications of
`handleFastCircle` all return and leave `currentFastLED = (p - n) mod 12`
(non-negative modulus), which lies in [0,12); as `n` is arbitrary this holds
after every tick of the run. -/
theorem fastCircleTicks_position (s : State) (p : Int) (n : Nat)
    (hp : s.currentFastLED = p) (h0 : 0 ≤ p) (h1 : p < 12) :
    ∃ r, fastCircleTicks s n = some r
      ∧ r.currentFastLED = (p - (n : Int)) % 12
      ∧ 0 ≤ r.currentFastLED ∧ r.currentFastLED < 12 := by
  induction n with
  | zero =>
    refine ⟨s, rfl, ?_, by omega, by omega⟩
    rw [hp]; simp only [Nat.cast_zero]; omega
  | succ k ih =>
    obtain ⟨r, hr, hc, hr0, hr1⟩ := ih
    have hh := handleFastCircle_eq r hr0 hr1
    simp only [fastCircleTicks, hr, Option.some_bind, hh]
    refine ⟨_, rfl, ?_, ?_, ?_⟩
    · simp only [hc]; push_cast; omega
    · simp only [hc]; omega
    · simp only [hc]; omega

/-- C2 at p = 3 and n = 5: the position is (3 - 5) mod 12 = 10. -/
theorem fastCircleTicks_position_witness :
    ∃ r, fastCircleTicks { initState with currentFastLED := 3 } 5 = some r
      ∧ r.currentFastLED = 10 ∧ 0 ≤ r.currentFastLED ∧ r.currentFastLED < 12 :=
  fastCircleTicks_position { initState with currentFastLED := 3 } 3 5 rfl
    (by decide) (by decide)

/-! ## Sync-line measurement (C3) -/

theorem vsyncEdges_append (s : State) (a b : List (Nat × Bool)) :
    vsyncEdges s (a ++ b) = vsyncEdges (vsyncEdges s a) b := by
  simp [vsyncEdges, List.foldl_append]

/-- An inactive (`HIGH`) notification writes nothing but `vsyncActive`. -/
theorem vsyncISR_high (s : State) (t : Nat) :
    (vsyncISR s t HIGH).lastVsyncTime = s.lastVsyncTime
      ∧ (vsyncISR s t HIGH).vsyncInterval = s.vsyncInterval
      ∧ (vsyncISR s t HIGH).measuredFrameRate = s.measuredFrameRate
      ∧ (vsyncISR s t HIGH).vsyncDetectionEnabled = s.vsyncDetectionEnabled := by
  cases s
  simp only [vsyncISR, HIGH, LOW]
  split_ifs <;> simp_all

theorem vsyncEdges_highs (ts : List Nat) (s : State) :
    (vsyncEdges s (highs ts)).lastVsyncTime = s.lastVsyncTime
      ∧ (vsyncEdges s (highs ts)).vsyncInterval = s.vsyncInterval
      ∧ (vsyncEdges s (highs ts)).measuredFrameRate = s.measuredFrameRate
      ∧ (vsyncEdges s (highs ts)).vsyncDetectionEnabled = s.vsyncDetectionEnabled := by
  induction ts generalizing s with
  | nil => simp [highs, vsyncEdges]
  | cons t ts ih =>
    have h1 := vsyncISR_high s t
    have h2 := ih (vsyncISR s t HIGH)
    simp only [highs, vsyncEdges, List.map_cons, List.foldl_cons] at h2 ⊢
    refine ⟨h2.1.trans h1.1, h2.2.1.trans h1.2.1, h2.2.2.1.trans h1.2.2.1,
      h2.2.2.2.trans h1.2.2.2⟩

/-- An active (`LOW`) notification with detection enabled: the interval and
the rate are written when a previous timestamp is stored (non-zero), and the
timestamp is replaced. -/
theorem vsyncISR_low (s : State) (t : Nat) (hen : s.vsyncDetectionEnabled = true) :
    (vsyncISR s t LOW).lastVsyncTime = t
      ∧ (vsyncISR s t LOW).vsyncDetectionEnabled = true
      ∧ (s.lastVsyncTime = 0 →
          (vsyncISR s t LOW).vsyncInterval = s.vsyncInterval
            ∧ (vsyncISR s t LOW).measuredFrameRate = s.measuredFrameRate)
      ∧ (0 < s.lastVsyncTime →
          (vsyncISR s t LOW).vsyncInterval = usub t s.lastVsyncTime
            ∧ (vsyncISR s t LOW).measuredFrameRate
                = floatDiv1e6 (usub t s.lastVsyncTime)) := by
  cases s
  simp only at hen
  subst hen
  simp only [vsyncISR, LOW]
  refine ⟨?_, ?_, ?_, ?_⟩
  · split_ifs <;> simp_all
  · split_ifs <;> simp_all
  · intro h; subst h; split_ifs <;> simp_all
  · intro h; split_ifs <;> simp_all

theorem dyadic_neg (m k : Nat) : dyadic (m, -(k : Int)) = (m : ℚ) / 2 ^ k := by
  simp [dyadic, Int.toNat_neg_nat]

/-- The stored rate for some intervals: 40000 and 3125 give the exact
quotients 25 and 320; 41708, 3 and 16667 give the nearest `float`, which is not
the quotient. -/
theorem floatDiv1e6_values :
    floatDiv1e6 40000 = FloatVal.val 25
      ∧ floatDiv1e6 3125 = FloatVal.val 320
      ∧ floatDiv1e6 41708 = FloatVal.val (6285221 / 262144)
      ∧ floatDiv1e6 3 = FloatVal.val (10666667 / 32)
      ∧ floatDiv1e6 16667 = FloatVal.val (15728325 / 262144)
      ∧ floatDiv1e6 0 = FloatVal.posInf := by
  have e1 : toFloat (roundBinary 53 1000000 40000) = (13107200, -((19 : Nat) : Int)) := by
    decide
  have e2 : toFloat (roundBinary 53 1000000 3125) = (10485760, -((15 : Nat) : Int)) := by
    decide
  have e3 : toFloat (roundBinary 53 1000000 41708) = (12570442, -((19 : Nat) : Int)) := by
    decide
  have e4 : toFloat (roundBinary 53 1000000 3) = (10666667, -((5 : Nat) : Int)) := by
    decide
  have e5 : toFloat (roundBinary 53 1000000 16667) = (15728325, -((18 : Nat) : Int)) := by
    decide
  refine ⟨?_, ?_, ?_, ?_, ?_, rfl⟩
  · simp only [floatDiv1e6, e1, dyadic_neg]; norm_num
  · simp only [floatDiv1e6, e2, dyadic_neg]; norm_num
  · simp only [floatDiv1e6, e3, dyadic_neg]; norm_num
  · simp only [floatDiv1e6, e4, dyadic_neg]; norm_num
  · simp only [floatDiv1e6, e5, dyadic_neg]; norm_num

/-- C3 (amended): with sync detection enabled and no edge seen yet, for
timestamps 0 < t1 < t2 (32-bit values), after active edges at t1 and t2 the
interval is `t2 - t1` and the rate is the `float` that the code's expression
`1000000.0 / vsyncInterval` yields at that interval: the quotient
`1000000 / (t2 - t1)` rounded to `double` and then to `float`; both still hold
their initial value after the first edge, and inactive notifications before,
between and after the two edges change neither. -/
theorem vsync_two_edges (s : State) (t1 t2 : Nat) (pre mid post : List Nat)
    (hen : s.vsyncDetectionEnabled = true) (hl : s.lastVsyncTime = 0)
    (hi : s.vsyncInterval = 0) (hr : s.measuredFrameRate = FloatVal.val 0)
    (h1 : 0 < t1) (h12 : t1 < t2) (h2 : t2 < W) :
    (vsyncEdges s (highs pre ++ [(t1, LOW)] ++ highs mid)).vsyncInterval = 0
      ∧ (vsyncEdges s (highs pre ++ [(t1, LOW)] ++ highs mid)).measuredFrameRate
          = FloatVal.val 0
      ∧ (vsyncEdges s (highs pre ++ [(t1, LOW)] ++ highs mid
            ++ [(t2, LOW)] ++ highs post)).vsyncInterval = t2 - t1
      ∧ (vsyncEdges s (highs pre ++ [(t1, LOW)] ++ highs mid
            ++ [(t2, LOW)] ++ highs post)).measuredFrameRate
          = FloatVal.val (dyadic (toFloat (roundBinary 53 1000000 (t2 - t1)))) := by
  have hA := vsyncEdges_highs pre s
  have hB := vsyncISR_low (vsyncEdges s (highs pre)) t1 (hA.2.2.2.trans hen)
  have hB0 := hB.2.2.1 (hA.1.trans hl)
  have hC := vsyncEdges_highs mid (vsyncISR (vsyncEdges s (highs pre)) t1 LOW)
  have e1 : vsyncEdges s (highs pre ++ [(t1, LOW)] ++ highs mid)
      = vsyncEdges (vsyncISR (vsyncEdges s (highs pre)) t1 LOW) (highs mid) := by
    simp [vsyncEdges, List.foldl_append]
  have hD := vsyncISR_low (vsyncEdges s (highs pre ++ [(t1, LOW)] ++ highs mid)) t2
    (by rw [e1]; exact hC.2.2.2.trans hB.2.1)
  have hlast : (vsyncEdges s (highs pre ++ [(t1, LOW)] ++ highs mid)).lastVsyncTime = t1 := by
    rw [e1]; exact hC.1.trans hB.1
  have hD1 := hD.2.2.2 (by rw [hlast]; exact h1)
  have hE := vsyncEdges_highs post
    (vsyncISR (vsyncEdges s (highs pre ++ [(t1, LOW)] ++ highs mid)) t2 LOW)
  have e2 : vsyncEdges s (highs pre ++ [(t1, LOW)] ++ highs mid ++ [(t2, LOW)] ++ highs post)
      = vsyncEdges (vsyncISR (vsyncEdges s (highs pre ++ [(t1, LOW)] ++ highs mid)) t2 LOW)
          (highs post) := by
    simp [vsyncEdges, List.foldl_append]
  have hsub : usub t2 t1 = t2 - t1 := usub_of_le t2 t1 (by omega) h2
  have hne : t2 - t1 ≠ 0 := by omega
  refine ⟨?_, ?_, ?_, ?_⟩
  · rw [e1]; exact hC.2.1.trans (hB0.1.trans (hA.2.1.trans hi))
  · rw [e1]; exact hC.2.2.1.trans (hB0.2.trans (hA.2.2.1.trans hr))
  · rw [e2, hE.2.1, hD1.1, hlast, hsub]
  · rw [e2, hE.2.2.1, hD1.2, hlast, hsub]
    simp [floatDiv1e6, hne]

/-- C3 (amended) at the start-up state with edges at 1000 and 42708
microseconds and inactive notifications around them: the interval is 41708 and
the rate is the `float` 6285221 / 262144 (23.97621536...), not the quotient
1000000 / 41708 (23.97621559...). -/
theorem vsync_two_edges_witness :
    (vsyncEdges initState (highs [500] ++ [(1000, LOW)] ++ highs [1200]
        ++ [(42708, LOW)] ++ highs [42900])).vsyncInterval = 41708
      ∧ (vsyncEdges initState (highs [500] ++ [(1000, LOW)] ++ highs [1200]
        ++ [(42708, LOW)] ++ highs [42900])).measuredFrameRate
          = FloatVal.val (6285221 / 262144) := by
  have h := vsync_two_edges initState 1000 42708 [500] [1200] [42900] rfl rfl rfl rfl
    (by decide) (by decide) (by decide)
  have e : toFloat (roundBinary 53 1000000 (42708 - 1000))
      = (12570442, -((19 : Nat) : Int)) := by decide
  refine ⟨h.2.2.1, ?_⟩
  rw [h.2.2.2, e, dyadic_neg]
  norm_num

/-- C3 fails as stated, in two ways.  When the first edge is stamped 0 the
stored timestamp 0 reads as "no edge yet", so the second edge (at 5) writes no
interval and no rate.  And with edges at 1000 and 42708 the stored rate is the
`float` 6285221 / 262144, which is not 1000000 / 41708. -/
theorem vsync_first_edge_at_zero :
    initState.vsyncDetectionEnabled = true ∧ (0 : Nat) < 5
      ∧ (vsyncEdges initState [(0, LOW), (5, LOW)]).vsyncInterval = 0
      ∧ (vsyncEdges initState [(0, LOW), (5, LOW)]).vsyncInterval ≠ 5 - 0
      ∧ (vsyncEdges initState [(0, LOW), (5, LOW)]).measuredFrameRate
          ≠ FloatVal.val ((1000000 : ℚ) / ((5 - 0 : Nat) : ℚ))
      ∧ (vsyncEdges initState [(1000, LOW), (42708, LOW)]).vsyncInterval = 42708 - 1000
      ∧ (vsyncEdges initState [(1000, LOW), (42708, LOW)]).measuredFrameRate
          = FloatVal.val (6285221 / 262144)
      ∧ (vsyncEdges initState [(1000, LOW), (42708, LOW)]).measuredFrameRate
          ≠ FloatVal.val ((1000000 : ℚ) / ((42708 - 1000 : Nat) : ℚ)) := by
  have hv : floatDiv1e6 41708 = FloatVal.val (6285221 / 262144) :=
    floatDiv1e6_values.2.2.1
  have hu : usub 42708 1000 = 41708 := by decide
  have hrate : (vsyncEdges initState [(1000, LOW), (42708, LOW)]).measuredFrameRate
      = FloatVal.val (6285221 / 262144) := by
    simp only [vsyncEdges, List.foldl_cons, List.foldl_nil, vsyncISR, initState, LOW]
    norm_num [hu, hv]
  refine ⟨rfl, by decide, by decide, by decide, ?_, by decide, hrate, ?_⟩
  · norm_num [vsyncEdges, vsyncISR, initState, LOW]
  · rw [hrate]; norm_num

/-! ## Field-line measurement (C4, C5) -/

/-- C5: one call of `fieldISR` at time `now` with level `L`.  When a previous
change timestamp is stored (non-zero), exactly the duration of the parity held
before the call is overwritten with `now - lastFieldChangeTime` (unsigned
32-bit difference, the plain difference when the clock has not wrapped) and
the other duration is kept; with no stored timestamp both are kept; in every
case `fieldOdd = (L is HIGH)` and `lastFieldChangeTime = now` afterwards, and
`vsyncDetectionEnabled` plays no part. -/
theorem fieldISR_effect (s : State) (now : Nat) (L b : Bool) :
    (0 < s.lastFieldChangeTime → s.fieldOdd = true →
        (fieldISR s now L).oddFieldDuration = usub now s.lastFieldChangeTime
          ∧ (fieldISR s now L).evenFieldDuration = s.evenFieldDuration)
      ∧ (0 < s.lastFieldChangeTime → s.fieldOdd = false →
        (fieldISR s now L).evenFieldDuration = usub now s.lastFieldChangeTime
          ∧ (fieldISR s now L).oddFieldDuration = s.oddFieldDuration)
      ∧ (s.lastFieldChangeTime = 0 →
        (fieldISR s now L).oddFieldDuration = s.oddFieldDuration
          ∧ (fieldISR s now L).evenFieldDuration = s.evenFieldDuration)
      ∧ (fieldISR s now L).fieldOdd = decide (L = HIGH)
      ∧ (fieldISR s now L).lastFieldChangeTime = now
      ∧ (s.lastFieldChangeTime ≤ now → now < W →
        usub now s.lastFieldChangeTime = now - s.lastFieldChangeTime)
      ∧ fieldISR { s with vsyncDetectionEnabled := b } now L
          = { fieldISR s now L with vsyncDetectionEnabled := b } := by
  cases s
  simp only [fieldISR]
  refine ⟨?_, ?_, ?_, ?_, ?_, ?_, ?_⟩
  · intro h1 h2; split_ifs <;> simp_all
  · intro h1 h2; split_ifs <;> simp_all
  · intro h1; split_ifs <;> simp_all
  · simp_all
  · simp_all
  · intro h1 h2; exact usub_of_le _ _ h1 h2
  · (try split_ifs) <;> simp_all

/-- C5 on a state whose parity is Odd since time 10, at an edge to `LOW` at
time 25: the odd duration becomes 15, the even one is kept. -/
theorem fieldISR_effect_witness :
    (fieldISR { initState with lastFieldChangeTime := 10, fieldOdd := true } 25 LOW).oddFieldDuration
        = usub 25 10
      ∧ (fieldISR { initState with lastFieldChangeTime := 10, fieldOdd := true } 25 LOW).evenFieldDuration
        = 0
      ∧ usub 25 10 = 25 - 10 :=
  ⟨((fieldISR_effect { initState with lastFieldChangeTime := 10, fieldOdd := true }
        25 LOW false).1 (by decide) rfl).1,
   ((fieldISR_effect { initState with lastFieldChangeTime := 10, fieldOdd := true }
        25 LOW false).1 (by decide) rfl).2,
   (fieldISR_effect { initState with lastFieldChangeTime := 10, fieldOdd := true }
        25 LOW false).2.2.2.2.2.1 (by decide) (by decide)⟩

/-- C4 (amended): for field edges at 0 < t1 < t2 < t3 (32-bit values) that set
the parity to Odd, Even, Odd, the duration t2 - t1 measured at t2 is stored in
`oddFieldDuration` (the parity that just ended) and the duration t3 - t2
measured at t3 in `evenFieldDuration`; the edge at t3 leaves
`oddFieldDuration = t2 - t1` in place. -/
theorem field_three_edges (s : State) (t1 t2 t3 : Nat)
    (h1 : 0 < t1) (h12 : t1 < t2) (h23 : t2 < t3) (h3 : t3 < W) :
    (fieldEdges s [(t1, HIGH)]).fieldOdd = true
      ∧ (fieldEdges s [(t1, HIGH), (t2, LOW)]).fieldOdd = false
      ∧ (fieldEdges s [(t1, HIGH), (t2, LOW)]).oddFieldDuration = t2 - t1
      ∧ (fieldEdges s [(t1, HIGH), (t2, LOW), (t3, HIGH)]).fieldOdd = true
      ∧ (fieldEdges s [(t1, HIGH), (t2, LOW), (t3, HIGH)]).evenFieldDuration = t3 - t2
      ∧ (fieldEdges s [(t1, HIGH), (t2, LOW), (t3, HIGH)]).oddFieldDuration = t2 - t1 := by
  have e12 : usub t2 t1 = t2 - t1 := usub_of_le t2 t1 (by omega) (by omega)
  have e23 : usub t3 t2 = t3 - t2 := usub_of_le t3 t2 (by omega) h3
  have p1 : 0 < t1 := h1
  have p2 : 0 < t2 := by omega
  cases s
  simp only [fieldEdges, List.foldl_cons, List.foldl_nil, fieldISR, HIGH, LOW]
  refine ⟨?_, ?_, ?_, ?_, ?_, ?_⟩ <;> (try split_ifs) <;> simp_all

/-- C4 (amended) from the start-up state with edges at 1, 3 and 6. -/
theorem field_three_edges_witness :
    (fieldEdges initState [(1, HIGH), (3, LOW)]).oddFieldDuration = 3 - 1
      ∧ (fieldEdges initState [(1, HIGH), (3, LOW), (6, HIGH)]).evenFieldDuration = 6 - 3 :=
  ⟨(field_three_edges initState 1 3 6 (by decide) (by decide) (by decide) (by decide)).2.2.1,
   (field_three_edges initState 1 3 6 (by decide) (by decide) (by decide)
      (by decide)).2.2.2.2.1⟩

/-- C4 fails as stated.  From the start-up state with edges at 1 (to Odd),
3 (to Even) and 6 (to Odd): after the edge at 3 `evenFieldDuration` is still 0,
not 3 - 1, and after the edge at 6 `oddFieldDuration` is 2, not 6 - 3.  With
the first edge stamped 0 nothing at all is recorded at the second edge. -/
theorem field_three_edges_as_stated_fails :
    ((fieldEdges initState [(1, HIGH), (3, LOW)]).evenFieldDuration = 0
        ∧ (fieldEdges initState [(1, HIGH), (3, LOW)]).evenFieldDuration ≠ 3 - 1
        ∧ (fieldEdges initState [(1, HIGH), (3, LOW), (6, HIGH)]).oddFieldDuration = 2
        ∧ (fieldEdges initState [(1, HIGH), (3, LOW), (6, HIGH)]).oddFieldDuration ≠ 6 - 3)
      ∧ ((fieldEdges initState [(0, HIGH), (3, LOW)]).oddFieldDuration = 0
        ∧ (fieldEdges initState [(0, HIGH), (3, LOW)]).evenFieldDuration = 0) := by
  decide

/-! ## One iteration of the poll loop -/

theorem led_pin_ne_output (i : Nat) : LED_PINS.getD i 0 ≠ OUTPUT_PIN := by
  by_cases h : i < 12
  · interval_cases i <;> decide
  · have hlen : LED_PINS.length ≤ i := by simp [LED_PINS]; omega
    rw [List.getD_eq_default _ _ hlen]; decide

theorem frameCalls_append (a b : List Event) :
    frameCalls (a ++ b) = frameCalls a + frameCalls b := by
  simp [frameCalls]

theorem fastCalls_append (a b : List Event) :
    fastCalls (a ++ b) = fastCalls a + fastCalls b := by
  simp [fastCalls]

theorem outputLevels_append (a b : List Event) :
    outputLevels (a ++ b) = outputLevels a ++ outputLevels b := by
  simp [outputLevels]

/-- What one run of `handleFastCircle` adds to the trace: one entry into the
handler, no entry into `handleFrameCircle`, nothing on `OUTPUT_PIN`. -/
theorem fast_suffix (i : Nat) :
    fastCalls ([Event.enterFastCircle] ++ LED_PINS.map (fun p => Event.digitalWrite p LOW)
        ++ [Event.digitalWrite (LED_PINS.getD i 0) HIGH]) = 1
      ∧ frameCalls ([Event.enterFastCircle] ++ LED_PINS.map (fun p => Event.digitalWrite p LOW)
        ++ [Event.digitalWrite (LED_PINS.getD i 0) HIGH]) = 0
      ∧ outputLevels ([Event.enterFastCircle] ++ LED_PINS.map (fun p => Event.digitalWrite p LOW)
        ++ [Event.digitalWrite (LED_PINS.getD i 0) HIGH]) = [] := by
  have hne := led_pin_ne_output i
  refine ⟨?_, ?_, ?_⟩
  · simp [fastCalls, LED_PINS, List.count_cons]
  · simp [frameCalls, LED_PINS, List.count_cons]
  · simp [outputLevels, LED_PINS, OUTPUT_PIN, List.filterMap_cons] at hne ⊢
    simp [hne]

/-- The function `handleFrameCircle` as one update of the state. -/
theorem handleFrameCircle_eq (s : State) :
    handleFrameCircle s = { s with
      trace := s.trace ++ [Event.enterFrameCircle, Event.digitalWrite 13 LOW,
          Event.digitalWrite 32 LOW, Event.digitalWrite 26 LOW, Event.digitalWrite 18 LOW]
        ++ (if s.frameCirclePhase then [Event.digitalWrite 26 HIGH, Event.digitalWrite 18 HIGH]
            else [Event.digitalWrite 13 HIGH, Event.digitalWrite 32 HIGH])
        ++ (if s.d4OutputEnabled then [Event.digitalWrite OUTPUT_PIN (!s.frameCirclePhase)]
            else []),
      frameCirclePhase := !s.frameCirclePhase } := by
  cases s with
  | mk a1 a2 a3 a4 d4 a6 a7 a8 a9 a10 a11 a12 a13 a14 a15 a16 a17 a18 a19 a20 ph a22 a23 =>
    cases ph <;> cases d4 <;> simp [handleFrameCircle, digitalWrite, LED_PINS, HIGH, LOW]

/-- What one run of `handleFrameCircle` adds to the trace. -/
theorem handleFrameCircle_trace (s : State) :
    frameCalls (handleFrameCircle s).trace = frameCalls s.trace + 1
      ∧ fastCalls (handleFrameCircle s).trace = fastCalls s.trace
      ∧ outputLevels (handleFrameCircle s).trace
          = outputLevels s.trace ++ (if s.d4OutputEnabled then [!s.frameCirclePhase] else []) := by
  rw [handleFrameCircle_eq]
  cases hp : s.frameCirclePhase <;> cases hd : s.d4OutputEnabled <;>
    simp [frameCalls, fastCalls, outputLevels, OUTPUT_PIN, List.count_cons, List.count_append,
      List.filterMap_cons, List.filterMap_append]

theorem lockReset_idle (s : State) (now : Nat) (ht : s.vsyncLockTrigger = false) :
    lockReset s now = s := by
  simp [lockReset, ht]

theorem fastStep_eq (s : State) (now : Nat)
    (h0 : 0 ≤ s.currentFastLED) (h1 : s.currentFastLED < 12) :
    fastStep s now = some (if fastDue s now then { s with
        trace := s.trace ++ [Event.enterFastCircle]
                  ++ LED_PINS.map (fun p => Event.digitalWrite p LOW)
                  ++ [Event.digitalWrite (LED_PINS.getD s.currentFastLED.toNat 0) HIGH],
        currentFastLED := (s.currentFastLED - 1) % 12,
        lastFastCircleUpdate := now } else s) := by
  unfold fastStep
  split_ifs with h
  · rw [handleFastCircle_eq s h0 h1]; rfl
  · rfl

/-- Effect of one run of `handleFastCircle` on the three readings of a trace. -/
theorem fast_trace (tr : List Event) (i : Nat) :
    fastCalls (tr ++ [Event.enterFastCircle] ++ LED_PINS.map (fun p => Event.digitalWrite p LOW)
        ++ [Event.digitalWrite (LED_PINS.getD i 0) HIGH]) = fastCalls tr + 1
      ∧ frameCalls (tr ++ [Event.enterFastCircle]
          ++ LED_PINS.map (fun p => Event.digitalWrite p LOW)
          ++ [Event.digitalWrite (LED_PINS.getD i 0) HIGH]) = frameCalls tr
      ∧ outputLevels (tr ++ [Event.enterFastCircle]
          ++ LED_PINS.map (fun p => Event.digitalWrite p LOW)
          ++ [Event.digitalWrite (LED_PINS.getD i 0) HIGH]) = outputLevels tr := by
  have h := fast_suffix i
  simp only [List.append_assoc, fastCalls_append, frameCalls_append, outputLevels_append]
    at h ⊢
  refine ⟨?_, ?_, ?_⟩
  · rw [h.1]
  · rw [h.2.1]; rfl
  · rw [h.2.2]; simp

/-- The fields `handleFrameCircle` leaves alone. -/
theorem handleFrameCircle_fields (s : State) :
    (handleFrameCircle s).vsyncLockTrigger = s.vsyncLockTrigger
      ∧ (handleFrameCircle s).currentFastLED = s.currentFastLED
      ∧ (handleFrameCircle s).frameCircleEnabled = s.frameCircleEnabled
      ∧ (handleFrameCircle s).frameInterval = s.frameInterval
      ∧ (handleFrameCircle s).d4OutputEnabled = s.d4OutputEnabled
      ∧ (handleFrameCircle s).frameCirclePhase = !s.frameCirclePhase := by
  rw [handleFrameCircle_eq]
  exact ⟨rfl, rfl, rfl, rfl, rfl, rfl⟩

/-- The fast-circle block of `loop`, with the position in the ring: it returns,
touches nothing the frame-phase sequencer reads or writes, and enters
`handleFastCircle` exactly when its elapsed-time test holds. -/
theorem fastStep_spec (s : State) (now : Nat)
    (h0 : 0 ≤ s.currentFastLED) (h1 : s.currentFastLED < 12) :
    ∃ r, fastStep s now = some r
      ∧ r.vsyncLockTrigger = s.vsyncLockTrigger
      ∧ 0 ≤ r.currentFastLED ∧ r.currentFastLED < 12
      ∧ r.frameCircleEnabled = s.frameCircleEnabled ∧ r.frameInterval = s.frameInterval
      ∧ r.d4OutputEnabled = s.d4OutputEnabled
      ∧ r.lastFrameCircleUpdate = s.lastFrameCircleUpdate
      ∧ r.frameCirclePhase = s.frameCirclePhase
      ∧ frameCalls r.trace = frameCalls s.trace
      ∧ fastCalls r.trace = fastCalls s.trace + (if fastDue s now then 1 else 0)
      ∧ outputLevels r.trace = outputLevels s.trace := by
  have hsuf := fast_trace s.trace s.currentFastLED.toNat
  have hm0 : 0 ≤ (s.currentFastLED - 1) % 12 := by omega
  have hm1 : (s.currentFastLED - 1) % 12 < 12 := by omega
  rw [fastStep_eq s now h0 h1]
  by_cases hf : fastDue s now = true
  · simp only [hf, if_true]
    exact ⟨_, rfl, rfl, hm0, hm1, rfl, rfl, rfl, rfl, rfl, hsuf.2.1, hsuf.1, hsuf.2.2⟩
  · simp only [hf, if_false]
    exact ⟨_, rfl, rfl, h0, h1, rfl, rfl, rfl, rfl, rfl, rfl, rfl, rfl⟩

/-- The frame-circle block of `loop`: it enters `handleFrameCircle` exactly
when its elapsed-time test holds, and then inverts the phase, restamps the
tick and, when the output is enabled, drives it to the negation of the phase
held on entry. -/
theorem frameStep_spec (s : State) (now : Nat) :
    (frameStep s now).vsyncLockTrigger = s.vsyncLockTrigger
      ∧ (frameStep s now).currentFastLED = s.currentFastLED
      ∧ (frameStep s now).frameCircleEnabled = s.frameCircleEnabled
      ∧ (frameStep s now).frameInterval = s.frameInterval
      ∧ (frameStep s now).d4OutputEnabled = s.d4OutputEnabled
      ∧ (frameStep s now).lastFrameCircleUpdate
          = (if frameDue s now then now else s.lastFrameCircleUpdate)
      ∧ (frameStep s now).frameCirclePhase
          = (if frameDue s now then !s.frameCirclePhase else s.frameCirclePhase)
      ∧ frameCalls (frameStep s now).trace
          = frameCalls s.trace + (if frameDue s now then 1 else 0)
      ∧ fastCalls (frameStep s now).trace = fastCalls s.trace
      ∧ outputLevels (frameStep s now).trace = outputLevels s.trace
          ++ (if frameDue s now && s.d4OutputEnabled then [!s.frameCirclePhase] else []) := by
  have hf := handleFrameCircle_fields s
  have htr := handleFrameCircle_trace s
  unfold frameStep
  by_cases hg : frameDue s now = true
  · simp only [hg, if_true, Bool.true_and]
    exact ⟨hf.1, hf.2.1, hf.2.2.1, hf.2.2.2.1, hf.2.2.2.2.1, trivial, hf.2.2.2.2.2,
      htr.1, htr.2.1, htr.2.2⟩
  · simp [hg]

/-- One iteration of `loop` with no lock trigger pending and the position in
the ring: it returns, and each sequencer ticks exactly when its own
elapsed-time test holds on entry. -/
theorem loop_spec (s : State) (now : Nat) (ht : s.vsyncLockTrigger = false)
    (h0 : 0 ≤ s.currentFastLED) (h1 : s.currentFastLED < 12) :
    ∃ r, loop s now = some r
      ∧ r.vsyncLockTrigger = false ∧ 0 ≤ r.currentFastLED ∧ r.currentFastLED < 12
      ∧ r.frameCircleEnabled = s.frameCircleEnabled ∧ r.frameInterval = s.frameInterval
      ∧ r.d4OutputEnabled = s.d4OutputEnabled
      ∧ r.lastFrameCircleUpdate = (if frameDue s now then now else s.lastFrameCircleUpdate)
      ∧ r.frameCirclePhase
          = (if frameDue s now then !s.frameCirclePhase else s.frameCirclePhase)
      ∧ frameCalls r.trace = frameCalls s.trace + (if frameDue s now then 1 else 0)
      ∧ fastCalls r.trace = fastCalls s.trace + (if fastDue s now then 1 else 0)
      ∧ outputLevels r.trace = outputLevels s.trace
          ++ (if frameDue s now && s.d4OutputEnabled then [!s.frameCirclePhase] else []) := by
  obtain ⟨m, hm, a1, a2, a3, a4, a5, a6, a7, a8, a9, a10, a11⟩ := fastStep_spec s now h0 h1
  obtain ⟨b1, b2, b3, b4, b5, b6, b7, b8, b9, b10⟩ := frameStep_spec m now
  have hdue : frameDue m now = frameDue s now := by
    simp only [frameDue, a4, a5, a7]
  rw [hdue] at b6 b7 b8 b10
  rw [a6] at b5 b10
  rw [a7] at b6
  rw [a8] at b7 b10
  refine ⟨frameStep m now, ?_, ?_, ?_, ?_, ?_, ?_, ?_, ?_, ?_, ?_, ?_, ?_⟩
  · simp only [loop, lockReset_idle s now ht, hm, Option.map_some']
  · rw [b1, a1, ht]
  · rw [b2]; exact a2
  · rw [b2]; exact a3
  · rw [b3, a4]
  · rw [b4, a5]
  · rw [b5]
  · rw [b6]
  · rw [b7]
  · rw [b8, a9]
  · rw [b9, a10]
  · rw [b10, a11]

/-! ## Lock reset (C6) -/

/-- An active edge with detection enabled keeps the configuration and the
trace, and raises the lock trigger when lock-to-sync is enabled. -/
theorem vsyncISR_low_config (s : State) (t : Nat)
    (hdet : s.vsyncDetectionEnabled = true) :
    (vsyncISR s t LOW).vsyncLockTrigger = (s.vsyncLockEnabled || s.vsyncLockTrigger)
      ∧ (vsyncISR s t LOW).fastCircleEnabled = s.fastCircleEnabled
      ∧ (vsyncISR s t LOW).frameCircleEnabled = s.frameCircleEnabled
      ∧ (vsyncISR s t LOW).fastCircleInterval = s.fastCircleInterval
      ∧ (vsyncISR s t LOW).frameInterval = s.frameInterval
      ∧ (vsyncISR s t LOW).trace = s.trace := by
  cases s
  simp only at hdet
  subst hdet
  simp only [vsyncISR, LOW]
  refine ⟨?_, ?_, ?_, ?_, ?_, ?_⟩ <;> split_ifs <;> simp_all

/-- C6: with lock-to-sync, sync detection and both sequencers enabled, a fast
interval of at least 1 and a frame rate in [1,120] with its interval
recomputed, an active edge followed by one iteration of `loop` leaves
`currentFastLED = 0`, `frameCirclePhase = false`, the trigger cleared and both
tick stamps at the clock reading of that iteration, whatever the position and
phase before; neither handler runs in that iteration (the trace is unchanged). -/
theorem lock_edge_then_loop (s : State) (tEdge now : Nat)
    (hfi : 1 ≤ s.fastCircleInterval) (hr1 : 1 ≤ s.frameRate) (hr2 : s.frameRate ≤ 120)
    (hupd : updateFrameInterval s = some s)
    (hlock : s.vsyncLockEnabled = true) (hdet : s.vsyncDetectionEnabled = true)
    (hfast : s.fastCircleEnabled = true) (hframe : s.frameCircleEnabled = true) :
    (vsyncISR s tEdge LOW).vsyncLockTrigger = true
      ∧ ∃ r, loop (vsyncISR s tEdge LOW) now = some r
        ∧ r.currentFastLED = 0 ∧ r.frameCirclePhase = false
        ∧ r.vsyncLockTrigger = false
        ∧ r.lastFastCircleUpdate = now ∧ r.lastFrameCircleUpdate = now
        ∧ r.trace = s.trace
        ∧ fastDue (lockReset (vsyncISR s tEdge LOW) now) now = false
        ∧ frameDue (lockReset (vsyncISR s tEdge LOW) now) now = false := by
  have hI := frameInterval_of_update s hr1 hr2 hupd
  obtain ⟨c1, c2, c3, c4, c5, c6⟩ := vsyncISR_low_config s tEdge hdet
  rw [hlock, Bool.true_or] at c1
  rw [hfast] at c2
  rw [hframe] at c3
  have e0 := usub_self now
  have hfd : fastDue (lockReset (vsyncISR s tEdge LOW) now) now = false := by
    simp [fastDue, lockReset, c1, c2, c3, c4, e0]; omega
  have hgd : frameDue (lockReset (vsyncISR s tEdge LOW) now) now = false := by
    simp [frameDue, lockReset, c1, c2, c3, c5, e0]; omega
  refine ⟨c1, ?_⟩
  refine ⟨lockReset (vsyncISR s tEdge LOW) now, ?_, ?_, ?_, ?_, ?_, ?_, ?_, hfd, hgd⟩
  · simp [loop, fastStep, frameStep, hfd, hgd]
  · simp [lockReset, c1, c2, c3]
  · simp [lockReset, c1, c2, c3]
  · simp [lockReset, c1, c2, c3]
  · simp [lockReset, c1, c2, c3]
  · simp [lockReset, c1, c2, c3]
  · simp [lockReset, c1, c2, c3, c6]

/-- C6 on `lockedState` (position 7, phase PairB): an edge at 1000 and a loop
iteration at 50 bring the position to 0 and the phase to PairA. -/
theorem lock_edge_then_loop_witness :
    ∃ r, loop (vsyncISR lockedState 1000 LOW) 50 = some r
        ∧ r.currentFastLED = 0 ∧ r.frameCirclePhase = false
        ∧ r.vsyncLockTrigger = false
        ∧ r.lastFastCircleUpdate = 50 ∧ r.lastFrameCircleUpdate = 50
        ∧ r.trace = lockedState.trace
        ∧ fastDue (lockReset (vsyncISR lockedState 1000 LOW) 50) 50 = false
        ∧ frameDue (lockReset (vsyncISR lockedState 1000 LOW) 50) 50 = false :=
  (lock_edge_then_loop lockedState 1000 50
    (by decide) (by decide) (by decide) (by decide) rfl rfl rfl rfl).2

/-! ## Configuration setters (C7) -/

/-- C7 at the value -1: the signed result of `toInt()` is stored into an
`unsigned long` before the bounds are tested, so `-1` becomes 4294967295; the
frame-rate setter then stores 120 (interval 4) where clamping to the nearest
bound would store 1, and the fast-sweep setter stores 4294967295 where
clamping would store 1.  The value 0 is raised to 1 by both setters. -/
theorem setters_at_minus_one :
    (apiFrameCircle initState none (some (-1)) none none).map
        (fun r => (r.frameRate, r.frameInterval)) = some (120, 4)
      ∧ (apiFastCircle initState none (some (-1))).fastCircleInterval = 4294967295
      ∧ (apiFrameCircle initState none (some 0) none none).map
        (fun r => (r.frameRate, r.frameInterval)) = some (1, 500)
      ∧ (apiFastCircle initState none (some 0)).fastCircleInterval = 1 := by
  decide

/-! ## Elapsed-time tests across clock wraparound (C8) -/

theorem fastDue_iff (s : State) (L d : Nat) (hd : d < W)
    (hen : s.fastCircleEnabled = true) (hl : s.lastFastCircleUpdate = L) :
    fastDue s ((L + d) % W) = true ↔ s.fastCircleInterval ≤ d := by
  simp [fastDue, hen, hl, usub_add_mod, Nat.mod_eq_of_lt hd]

theorem frameDue_iff (s : State) (L d : Nat) (hd : d < W)
    (hen : s.frameCircleEnabled = true) (hl : s.lastFrameCircleUpdate = L) :
    frameDue s ((L + d) % W) = true ↔ s.frameInterval ≤ d := by
  simp [frameDue, hen, hl, usub_add_mod, Nat.mod_eq_of_lt hd]

/-- C8: with 32-bit clock and stamps, a last-tick stamp L and a true elapsed
time d below 2^32, the iteration of `loop` at clock reading (L + d) mod 2^32
(no lock trigger pending, position in the ring) enters `handleFastCircle`
exactly when the enabled fast sweep has `d ≥ fastCircleInterval`, and enters
`handleFrameCircle` exactly when the enabled frame sequencer has
`d ≥ frameInterval`, also when L + d passes 2^32. -/
theorem elapsed_tests_wraparound (s : State) (L d : Nat) (hd : d < W)
    (ht : s.vsyncLockTrigger = false)
    (h0 : 0 ≤ s.currentFastLED) (h1 : s.currentFastLED < 12) :
    ∃ r, loop s ((L + d) % W) = some r
      ∧ (s.fastCircleEnabled = true → s.lastFastCircleUpdate = L →
          (fastDue s ((L + d) % W) = true ↔ s.fastCircleInterval ≤ d)
            ∧ (fastCalls r.trace = fastCalls s.trace + 1 ↔ s.fastCircleInterval ≤ d)
            ∧ (fastCalls r.trace = fastCalls s.trace ↔ d < s.fastCircleInterval))
      ∧ (s.frameCircleEnabled = true → s.lastFrameCircleUpdate = L →
          (frameDue s ((L + d) % W) = true ↔ s.frameInterval ≤ d)
            ∧ (frameCalls r.trace = frameCalls s.trace + 1 ↔ s.frameInterval ≤ d)
            ∧ (frameCalls r.trace = frameCalls s.trace ↔ d < s.frameInterval)) := by
  obtain ⟨r, hr, -, -, -, -, -, -, -, -, hfr, hfa, -⟩ := loop_spec s ((L + d) % W) ht h0 h1
  refine ⟨r, hr, ?_, ?_⟩
  · intro hen hl
    have hiff := fastDue_iff s L d hd hen hl
    refine ⟨hiff, ?_, ?_⟩
    · rw [hfa, ← hiff]
      by_cases hx : fastDue s ((L + d) % W) = true <;> simp [hx]
    · rw [hfa, ← not_le, ← hiff]
      by_cases hx : fastDue s ((L + d) % W) = true <;> simp [hx]
  · intro hen hl
    have hiff := frameDue_iff s L d hd hen hl
    refine ⟨hiff, ?_, ?_⟩
    · rw [hfr, ← hiff]
      by_cases hx : frameDue s ((L + d) % W) = true <;> simp [hx]
    · rw [hfr, ← not_le, ← hiff]
      by_cases hx : frameDue s ((L + d) % W) = true <;> simp [hx]

/-- C8 on `wrappedState`, whose stamps are 6 ms before the clock wraps: 10 ms
later the clock reads 4; the fast sweep (interval 1) ticks and the frame
sequencer (interval 20) does not. -/
theorem elapsed_tests_wraparound_witness :
    (4294967290 + 10) % W = 4
      ∧ ∃ r, loop wrappedState ((4294967290 + 10) % W) = some r
        ∧ fastCalls r.trace = fastCalls wrappedState.trace + 1
        ∧ frameCalls r.trace = frameCalls wrappedState.trace := by
  refine ⟨by decide, ?_⟩
  obtain ⟨r, hr, hfa, hfr⟩ := elapsed_tests_wraparound wrappedState 4294967290 10
    (by decide) rfl (by decide) (by decide)
  exact ⟨r, hr, (hfa rfl rfl).2.1.mpr (by decide), (hfr rfl rfl).2.2.mpr (by decide)⟩

/-! ## Frame-phase sequencer over a run of polls (C9, C10) -/

theorem usub_mod_mod (a d : Nat) : usub ((a + d) % W) (a % W) = d % W := by
  unfold usub W; omega

/-- Moving from `n` to `n + 1` polls either completes a half-period (the
remainder reaches `h - 1`) or stays inside it. -/
theorem succ_div_cases (n h : Nat) (hh : 1 ≤ h) :
    (n % h + 1 = h ∧ (n + 1) / h = n / h + 1) ∨ (n % h + 1 < h ∧ (n + 1) / h = n / h) := by
  have hm : n % h < h := Nat.mod_lt _ (by omega)
  have hdm : h * (n / h) + n % h = n := Nat.div_add_mod n h
  by_cases hc : n % h + 1 = h
  · left
    refine ⟨hc, ?_⟩
    have e : n + 1 = h * (n / h + 1) := by rw [Nat.mul_add, Nat.mul_one]; omega
    rw [e, Nat.mul_div_cancel_left _ (by omega)]
  · right
    refine ⟨by omega, ?_⟩
    apply Nat.div_eq_of_lt_le
    · rw [Nat.mul_comm]; omega
    · rw [Nat.add_mul, Nat.one_mul, Nat.mul_comm]; omega

theorem expectedLevels_succ (p : Bool) (q : Nat) :
    expectedLevels p (q + 1) = expectedLevels p q ++ [!(xor p (decide (q % 2 = 1)))] := by
  simp [expectedLevels, List.range_succ]

theorem parity_succ (p : Bool) (q : Nat) :
    xor p (decide ((q + 1) % 2 = 1)) = !(xor p (decide (q % 2 = 1))) := by
  rcases Nat.mod_two_eq_zero_or_one q with h | h
  · have h2 : (q + 1) % 2 = 1 := by omega
    simp [h, h2]
  · have h2 : (q + 1) % 2 = 0 := by omega
    simp [h, h2]

/-- The frame-phase sequencer after `n` polls at `t0 + 1, ..., t0 + n`, with
half-period `h ≥ 1`, last tick stamped at `t0` and no lock trigger pending:
every poll returns, `handleFrameCircle` has run `n / h` times, the stamp is
`t0 + (n / h) * h`, the phase has been inverted once per run of the handler and
the output (when enabled) has been driven to the alternating levels. -/
theorem pollEach_frame (s : State) (t0 h : Nat) (hh : 1 ≤ h) (hW : h < W)
    (ht : s.vsyncLockTrigger = false)
    (h0 : 0 ≤ s.currentFastLED) (h1 : s.currentFastLED < 12)
    (hen : s.frameCircleEnabled = true) (hint : s.frameInterval = h)
    (hlast : s.lastFrameCircleUpdate = t0 % W) (n : Nat) :
    ∃ r, pollEach s t0 n = some r
      ∧ r.vsyncLockTrigger = false ∧ 0 ≤ r.currentFastLED ∧ r.currentFastLED < 12
      ∧ r.frameCircleEnabled = true ∧ r.frameInterval = h
      ∧ r.d4OutputEnabled = s.d4OutputEnabled
      ∧ r.lastFrameCircleUpdate = (t0 + n / h * h) % W
      ∧ r.frameCirclePhase = xor s.frameCirclePhase (decide (n / h % 2 = 1))
      ∧ frameCalls r.trace = frameCalls s.trace + n / h
      ∧ outputLevels r.trace = outputLevels s.trace
          ++ (if s.d4OutputEnabled then expectedLevels s.frameCirclePhase (n / h) else []) := by
  induction n with
  | zero =>
    refine ⟨s, rfl, ht, h0, h1, hen, hint, rfl, ?_, ?_, ?_, ?_⟩
    · simp [hlast]
    · simp
    · simp
    · simp [expectedLevels]
  | succ n ih =>
    obtain ⟨r, hr, i1, i2, i3, i4, i5, i6, i7, i8, i9, i10⟩ := ih
    obtain ⟨r2, hr2, j1, j2, j3, j4, j5, j6, j7, j8, j9, -, j11⟩ :=
      loop_spec r ((t0 + (n + 1)) % W) i1 i2 i3
    have hm : n % h < h := Nat.mod_lt _ (by omega)
    have hdm : h * (n / h) + n % h = n := Nat.div_add_mod n h
    have hsplit : t0 + (n + 1) = (t0 + n / h * h) + (n % h + 1) := by
      rw [Nat.mul_comm (n / h) h]; omega
    have hel : usub ((t0 + (n + 1)) % W) r.lastFrameCircleUpdate = n % h + 1 := by
      rw [i7, hsplit, usub_mod_mod, Nat.mod_eq_of_lt (by omega)]
    have hdue : frameDue r ((t0 + (n + 1)) % W) = decide (h ≤ n % h + 1) := by
      simp [frameDue, i4, i5, hel]
    rw [hdue] at j7 j8 j9 j11
    rw [i4] at j4
    rw [i5] at j5
    rw [i6] at j6 j11
    rw [i8] at j8 j11
    rw [i9] at j9
    rw [i10] at j11
    refine ⟨r2, ?_, j1, j2, j3, j4, j5, j6, ?_, ?_, ?_, ?_⟩
    · simp only [pollEach, hr, Option.some_bind, hr2]
    all_goals rcases succ_div_cases n h hh with ⟨hc, hq⟩ | ⟨hc, hq⟩
    · rw [j7, hq, Nat.add_mul, Nat.one_mul]
      have hle : h ≤ n % h + 1 := by omega
      simp only [hle, decide_True, if_true]
      congr 1
      rw [Nat.mul_comm (n / h) h]; omega
    · rw [j7, hq]
      have hle : ¬ h ≤ n % h + 1 := by omega
      simp only [hle, decide_False, i7]
      simp
    · rw [j8, hq, parity_succ]
      have hle : h ≤ n % h + 1 := by omega
      simp [hle]
    · rw [j8, hq]
      have hle : ¬ h ≤ n % h + 1 := by omega
      simp [hle]
    · rw [j9, hq]
      have hle : h ≤ n % h + 1 := by omega
      simp [hle]; omega
    · rw [j9, hq]
      have hle : ¬ h ≤ n % h + 1 := by omega
      simp [hle]
    · rw [j11, hq, expectedLevels_succ]
      have hle : h ≤ n % h + 1 := by omega
      cases hd : s.d4OutputEnabled <;> simp [hle]
    · rw [j11, hq]
      have hle : ¬ h ≤ n % h + 1 := by omega
      simp [hle]

theorem polls_per_frame (f : Nat) (h1 : 1 ≤ f) (h2 : f ≤ 120) :
    1000 / f / (500 / f) = 2 := by
  interval_cases f <;> rfl

/-- C9: for a frame rate f in [1,120] with its interval recomputed, the frame
sequencer enabled, no lock trigger pending and the last frame tick stamped at
t0 (32-bit clock, position in the ring), polling `loop` at every millisecond
t0 + 1, ..., t0 + 1000 / f returns each time and runs `handleFrameCircle`
exactly twice, after which `frameCirclePhase` is what it was at t0; after any
k of these polls the handler has run k / (500 / f) times and the phase has
been inverted once per run; each run of the handler inverts the phase once. -/
theorem frame_two_ticks_per_period (s : State) (t0 : Nat)
    (hr1 : 1 ≤ s.frameRate) (hr2 : s.frameRate ≤ 120)
    (hupd : updateFrameInterval s = some s)
    (hen : s.frameCircleEnabled = true) (ht : s.vsyncLockTrigger = false)
    (hlast : s.lastFrameCircleUpdate = t0) (ht0 : t0 < W)
    (h0 : 0 ≤ s.currentFastLED) (h1 : s.currentFastLED < 12) :
    (∃ r, pollEach s t0 (1000 / s.frameRate) = some r
        ∧ frameCalls r.trace = frameCalls s.trace + 2
        ∧ r.frameCirclePhase = s.frameCirclePhase)
      ∧ (∀ k, k ≤ 1000 / s.frameRate → ∃ r, pollEach s t0 k = some r
        ∧ frameCalls r.trace = frameCalls s.trace + k / (500 / s.frameRate)
        ∧ r.frameCirclePhase
            = xor s.frameCirclePhase (decide (k / (500 / s.frameRate) % 2 = 1)))
      ∧ (∀ x : State, (handleFrameCircle x).frameCirclePhase = !x.frameCirclePhase
        ∧ frameCalls (handleFrameCircle x).trace = frameCalls x.trace + 1) := by
  obtain ⟨hI, hlo, hhi⟩ := frameInterval_of_update s hr1 hr2 hupd
  have hW : 500 / s.frameRate < W := by unfold W; omega
  have hl : s.lastFrameCircleUpdate = t0 % W := by rw [Nat.mod_eq_of_lt ht0]; exact hlast
  have key := pollEach_frame s t0 (500 / s.frameRate) (by omega) hW ht h0 h1 hen hI hl
  refine ⟨?_, ?_, ?_⟩
  · obtain ⟨r, hr, -, -, -, -, -, -, -, hp, hc, -⟩ := key (1000 / s.frameRate)
    rw [polls_per_frame s.frameRate hr1 hr2] at hp hc
    refine ⟨r, hr, hc, ?_⟩
    rw [hp]; simp
  · intro k _
    obtain ⟨r, hr, -, -, -, -, -, -, -, hp, hc, -⟩ := key k
    exact ⟨r, hr, hc, hp⟩
  · intro x
    exact ⟨(handleFrameCircle_fields x).2.2.2.2.2, (handleFrameCircle_trace x).1⟩

/-- C9 on `frameScenario` (24 fps, interval 20, stamp 0): 41 polls, two runs
of the handler, phase back at PairA. -/
theorem frame_two_ticks_per_period_witness :
    ∃ r, pollEach frameScenario 0 (1000 / frameScenario.frameRate) = some r
        ∧ frameCalls r.trace = frameCalls frameScenario.trace + 2
        ∧ r.frameCirclePhase = frameScenario.frameCirclePhase :=
  (frame_two_ticks_per_period frameScenario 0 (by decide) (by decide) (by decide)
    rfl rfl rfl (by decide) (by decide) (by decide)).1

/-- C10 (amended): at 24 fps (half-period 20 ms) with the frame sequencer and
the auxiliary output enabled, phase PairA and the last frame tick stamped at 0,
polling `loop` at every millisecond: after the polls up to k ms (any k) the
handler has run k / 20 times and the output has been driven to the first
k / 20 of the alternating levels `HIGH`, `LOW`, `HIGH`, ...  So nothing is
driven up to 19 ms, `HIGH` is driven by the poll at 20 ms, nothing more up to
39 ms, `LOW` is driven by the poll at 40 ms, when the handler has run exactly
twice and the phase is PairA again, nothing more up to 59 ms, and the next
`HIGH` is driven by the poll at 60 ms. -/
theorem frame_scenario_24fps (s : State)
    (hr : s.frameRate = 24) (hupd : updateFrameInterval s = some s)
    (hen : s.frameCircleEnabled = true) (hd4 : s.d4OutputEnabled = true)
    (hph : s.frameCirclePhase = false) (hlast : s.lastFrameCircleUpdate = 0)
    (ht : s.vsyncLockTrigger = false)
    (h0 : 0 ≤ s.currentFastLED) (h1 : s.currentFastLED < 12) :
    s.frameInterval = 20
      ∧ (∀ k : Nat, ∃ r, pollEach s 0 k = some r
        ∧ frameCalls r.trace = frameCalls s.trace + k / 20
        ∧ r.frameCirclePhase = decide (k / 20 % 2 = 1)
        ∧ outputLevels r.trace = outputLevels s.trace ++ expectedLevels false (k / 20))
      ∧ (∃ r, pollEach s 0 19 = some r
        ∧ frameCalls r.trace = frameCalls s.trace
        ∧ outputLevels r.trace = outputLevels s.trace)
      ∧ (∃ r, pollEach s 0 20 = some r
        ∧ frameCalls r.trace = frameCalls s.trace + 1
        ∧ outputLevels r.trace = outputLevels s.trace ++ [HIGH])
      ∧ (∃ r, pollEach s 0 39 = some r
        ∧ frameCalls r.trace = frameCalls s.trace + 1
        ∧ outputLevels r.trace = outputLevels s.trace ++ [HIGH])
      ∧ (∃ r, pollEach s 0 40 = some r
        ∧ frameCalls r.trace = frameCalls s.trace + 2
        ∧ r.frameCirclePhase = false
        ∧ outputLevels r.trace = outputLevels s.trace ++ [HIGH, LOW])
      ∧ (∃ r, pollEach s 0 59 = some r
        ∧ frameCalls r.trace = frameCalls s.trace + 2
        ∧ outputLevels r.trace = outputLevels s.trace ++ [HIGH, LOW])
      ∧ (∃ r, pollEach s 0 60 = some r
        ∧ frameCalls r.trace = frameCalls s.trace + 3
        ∧ outputLevels r.trace = outputLevels s.trace ++ [HIGH, LOW, HIGH]) := by
  obtain ⟨hI, -, -⟩ := frameInterval_of_update s (by omega) (by omega) hupd
  rw [hr] at hI
  have hI20 : s.frameInterval = 20 := hI
  have key := pollEach_frame s 0 20 (by decide) (by decide) ht h0 h1 hen hI20
    (by rw [hlast]; rfl)
  have gen : ∀ k : Nat, ∃ r, pollEach s 0 k = some r
      ∧ frameCalls r.trace = frameCalls s.trace + k / 20
      ∧ r.frameCirclePhase = decide (k / 20 % 2 = 1)
      ∧ outputLevels r.trace = outputLevels s.trace ++ expectedLevels false (k / 20) := by
    intro k
    obtain ⟨r, hk, -, -, -, -, -, -, -, hp, hc, ho⟩ := key k
    refine ⟨r, hk, hc, ?_, ?_⟩
    · rw [hp, hph]; simp
    · rw [ho, hd4, hph]; rfl
  refine ⟨hI20, gen, ?_, ?_, ?_, ?_, ?_, ?_⟩
  · obtain ⟨r, hk, hc, -, ho⟩ := gen 19
    exact ⟨r, hk, hc, by rw [ho]; exact List.append_nil _⟩
  · obtain ⟨r, hk, hc, -, ho⟩ := gen 20
    exact ⟨r, hk, hc, ho⟩
  · obtain ⟨r, hk, hc, -, ho⟩ := gen 39
    exact ⟨r, hk, hc, ho⟩
  · obtain ⟨r, hk, hc, hp, ho⟩ := gen 40
    exact ⟨r, hk, hc, by rw [hp]; decide, ho⟩
  · obtain ⟨r, hk, hc, -, ho⟩ := gen 59
    exact ⟨r, hk, hc, ho⟩
  · obtain ⟨r, hk, hc, -, ho⟩ := gen 60
    exact ⟨r, hk, hc, ho⟩

/-- C10 (amended) on `frameScenario`: nothing driven after 19 polls, `HIGH`
after 20, `HIGH`, `LOW` after 40. -/
theorem frame_scenario_24fps_witness :
    (∃ r, pollEach frameScenario 0 19 = some r
        ∧ frameCalls r.trace = frameCalls frameScenario.trace
        ∧ outputLevels r.trace = outputLevels frameScenario.trace)
      ∧ (∃ r, pollEach frameScenario 0 20 = some r
        ∧ frameCalls r.trace = frameCalls frameScenario.trace + 1
        ∧ outputLevels r.trace = outputLevels frameScenario.trace ++ [HIGH])
      ∧ (∃ r, pollEach frameScenario 0 40 = some r
        ∧ frameCalls r.trace = frameCalls frameScenario.trace + 2
        ∧ r.frameCirclePhase = false
        ∧ outputLevels r.trace = outputLevels frameScenario.trace ++ [HIGH, LOW]) :=
  ⟨(frame_scenario_24fps frameScenario rfl (by decide) rfl rfl rfl rfl rfl
      (by decide) (by decide)).2.2.1,
   (frame_scenario_24fps frameScenario rfl (by decide) rfl rfl rfl rfl rfl
      (by decide) (by decide)).2.2.2.1,
   (frame_scenario_24fps frameScenario rfl (by decide) rfl rfl rfl rfl rfl
      (by decide) (by decide)).2.2.2.2.2.1⟩

/-- C10 fails as stated: on `frameScenario`, after the polls at 1, ..., 40 ms
the phase is PairA after two runs of the handler, but the output has been
driven `HIGH`, `LOW` only, not `HIGH`, `LOW`, `HIGH`. -/
theorem frame_scenario_output_after_40ms :
    (pollEach frameScenario 0 40).map
        (fun r => (r.frameCirclePhase, frameCalls r.trace, outputLevels r.trace))
        = some (false, 2, [HIGH, LOW])
      ∧ (pollEach frameScenario 0 40).map (fun r => outputLevels r.trace)
        ≠ some [HIGH, LOW, HIGH] := by
  obtain ⟨r, hr, -, -, -, -, -, -, -, hp, hc, ho⟩ :=
    pollEach_frame frameScenario 0 20 (by decide) (by decide) rfl (by decide) (by decide)
      rfl rfl rfl 40
  have hp2 : r.frameCirclePhase = false := by rw [hp]; decide
  have hc2 : frameCalls r.trace = 2 := by rw [hc]; decide
  have ho2 : outputLevels r.trace = [HIGH, LOW] := by rw [ho]; decide
  rw [hr]
  refine ⟨?_, ?_⟩
  · simp only [Option.map_some', hp2, hc2, ho2]
  · simp only [Option.map_some', ho2]
    decide

/-! ## Sync detection switched off (C13) -/

/-- C13: with `vsyncDetectionEnabled` false, `vsyncISR` returns the state it
was given for every timestamp and line level, so `lastVsyncTime`,
`vsyncInterval`, `measuredFrameRate`, `vsyncDetected`, `vsyncActive` and
`vsyncLockTrigger` keep their values (an inactive edge does not clear
`vsyncActive`); the same holds for any sequence of notifications, and with no
trigger pending the reset block of `loop` then does nothing, also when
`vsyncLockEnabled` is true. -/
theorem vsyncISR_detection_off (s : State) (t : Nat) (L : Bool)
    (edges : List (Nat × Bool)) (now : Nat)
    (hoff : s.vsyncDetectionEnabled = false) :
    vsyncISR s t L = s
      ∧ (vsyncISR s t L).lastVsyncTime = s.lastVsyncTime
      ∧ (vsyncISR s t L).vsyncInterval = s.vsyncInterval
      ∧ (vsyncISR s t L).measuredFrameRate = s.measuredFrameRate
      ∧ (vsyncISR s t L).vsyncDetected = s.vsyncDetected
      ∧ (vsyncISR s t L).vsyncActive = s.vsyncActive
      ∧ (vsyncISR s t L).vsyncLockTrigger = s.vsyncLockTrigger
      ∧ vsyncEdges s edges = s
      ∧ (s.vsyncLockTrigger = false → lockReset (vsyncEdges s edges) now = s) := by
  have h1 : ∀ (t : Nat) (L : Bool), vsyncISR s t L = s := by
    intro t L; simp [vsyncISR, hoff]
  have h2 : vsyncEdges s edges = s := by
    induction edges with
    | nil => rfl
    | cons e es ih =>
      simp only [vsyncEdges, List.foldl_cons] at ih ⊢
      rw [h1 e.1 e.2]; exact ih
  refine ⟨h1 t L, ?_, ?_, ?_, ?_, ?_, ?_, h2, ?_⟩
  · rw [h1]
  · rw [h1]
  · rw [h1]
  · rw [h1]
  · rw [h1]
  · rw [h1]
  · intro ht; rw [h2]; exact lockReset_idle s now ht

/-- C13 on `detectionOffState` (lock-to-sync on, line marked active): an
inactive edge at 700 leaves the state as it was, `vsyncActive` still true, and
an active edge raises no trigger. -/
theorem vsyncISR_detection_off_witness :
    vsyncISR detectionOffState 700 HIGH = detectionOffState
      ∧ (vsyncISR detectionOffState 700 HIGH).vsyncActive = true
      ∧ vsyncEdges detectionOffState [(800, LOW), (900, HIGH)] = detectionOffState
      ∧ lockReset (vsyncEdges detectionOffState [(800, LOW), (900, HIGH)]) 5
          = detectionOffState :=
  ⟨(vsyncISR_detection_off detectionOffState 700 HIGH [(800, LOW), (900, HIGH)] 5 rfl).1,
   (vsyncISR_detection_off detectionOffState 700 HIGH
      [(800, LOW), (900, HIGH)] 5 rfl).2.2.2.2.2.1,
   (vsyncISR_detection_off detectionOffState 700 HIGH
      [(800, LOW), (900, HIGH)] 5 rfl).2.2.2.2.2.2.2.1,
   (vsyncISR_detection_off detectionOffState 700 HIGH
      [(800, LOW), (900, HIGH)] 5 rfl).2.2.2.2.2.2.2.2 rfl⟩

/-! ## The lock trigger does not queue (C12) -/

theorem withMeasurement_twice (s : State) (a b a2 b2 : Nat) (c c2 : FloatVal) :
    withMeasurement (withMeasurement s a b c) a2 b2 c2 = withMeasurement s a2 b2 c2 := rfl

theorem armed_withMeasurement (s : State) (a b : Nat) (c : FloatVal) :
    armed (withMeasurement s a b c) = withMeasurement (armed s) a b c := rfl

/-- An active edge with detection and lock-to-sync enabled raises the three
flags and writes measurement fields only. -/
theorem vsyncISR_low_armed (s : State) (t : Nat)
    (hdet : s.vsyncDetectionEnabled = true) (hlock : s.vsyncLockEnabled = true) :
    ∃ x y z, vsyncISR s t LOW = withMeasurement (armed s) x y z := by
  refine ⟨t, if 0 < s.lastVsyncTime then usub t s.lastVsyncTime else s.vsyncInterval,
    if 0 < s.lastVsyncTime then floatDiv1e6 (usub t s.lastVsyncTime)
    else s.measuredFrameRate, ?_⟩
  cases s
  simp only at hdet hlock
  subst hdet hlock
  simp only [vsyncISR, LOW, withMeasurement, armed]
  split_ifs <;> simp_all

/-- One or more active edges in a row leave the state that a single one
leaves, apart from the measurement fields. -/
theorem vsyncEdges_lows_armed (ts : List Nat) (s : State) (t : Nat)
    (hdet : s.vsyncDetectionEnabled = true) (hlock : s.vsyncLockEnabled = true) :
    ∃ x y z, vsyncEdges s (lows (t :: ts)) = withMeasurement (armed s) x y z := by
  induction ts generalizing s t with
  | nil =>
    obtain ⟨x, y, z, h⟩ := vsyncISR_low_armed s t hdet hlock
    exact ⟨x, y, z, by simpa [vsyncEdges, lows] using h⟩
  | cons u us ih =>
    obtain ⟨x, y, z, h⟩ := vsyncISR_low_armed s t hdet hlock
    have hd2 : (vsyncISR s t LOW).vsyncDetectionEnabled = true := by rw [h]; exact hdet
    have hl2 : (vsyncISR s t LOW).vsyncLockEnabled = true := by rw [h]; exact hlock
    obtain ⟨x2, y2, z2, h2⟩ := ih (vsyncISR s t LOW) u hd2 hl2
    refine ⟨x2, y2, z2, ?_⟩
    have e : vsyncEdges s (lows (t :: u :: us))
        = vsyncEdges (vsyncISR s t LOW) (lows (u :: us)) := by
      simp [vsyncEdges, lows]
    rw [e, h2, h]
    rfl

/-! The measurement fields play no part in `loop`. -/

theorem lockReset_withMeasurement (s : State) (now a b : Nat) (c : FloatVal) :
    lockReset (withMeasurement s a b c) now = withMeasurement (lockReset s now) a b c := by
  cases s
  simp only [lockReset, withMeasurement]
  split_ifs <;> rfl

theorem handleFastCircle_withMeasurement (s : State) (a b : Nat) (c : FloatVal) :
    handleFastCircle (withMeasurement s a b c)
      = (handleFastCircle s).map (fun r => withMeasurement r a b c) := by
  simp only [handleFastCircle, allLedsLow_eq, withMeasurement, digitalWrite]
  split_ifs
  · cases LED_PINS[s.currentFastLED.toNat]? <;> rfl
  · rfl

theorem fastStep_withMeasurement (s : State) (now a b : Nat) (c : FloatVal) :
    fastStep (withMeasurement s a b c) now
      = (fastStep s now).map (fun r => withMeasurement r a b c) := by
  have hd : fastDue (withMeasurement s a b c) now = fastDue s now := rfl
  simp only [fastStep, hd, handleFastCircle_withMeasurement]
  split_ifs
  · cases handleFastCircle s <;> rfl
  · rfl

theorem frameStep_withMeasurement (s : State) (now a b : Nat) (c : FloatVal) :
    frameStep (withMeasurement s a b c) now = withMeasurement (frameStep s now) a b c := by
  have hd : frameDue (withMeasurement s a b c) now = frameDue s now := rfl
  simp only [frameStep, hd]
  split_ifs
  · rw [handleFrameCircle_eq, handleFrameCircle_eq]; rfl
  · rfl

theorem loop_withMeasurement (s : State) (now a b : Nat) (c : FloatVal) :
    loop (withMeasurement s a b c) now
      = (loop s now).map (fun r => withMeasurement r a b c) := by
  simp only [loop, lockReset_withMeasurement, fastStep_withMeasurement]
  cases fastStep (lockReset s now) now <;> simp [frameStep_withMeasurement]

/-- The fast-circle block of `loop` returns whenever an enabled fast sweep has
its position in the ring, and keeps the lock trigger as it is. -/
theorem fastStep_some (s : State) (now : Nat)
    (h : s.fastCircleEnabled = true → 0 ≤ s.currentFastLED ∧ s.currentFastLED < 12) :
    ∃ r, fastStep s now = some r ∧ r.vsyncLockTrigger = s.vsyncLockTrigger := by
  by_cases hf : fastDue s now = true
  · have hen : s.fastCircleEnabled = true := by
      simp only [fastDue, Bool.and_eq_true] at hf
      exact hf.1
    obtain ⟨r, hr, htr, -⟩ := fastStep_spec s now (h hen).1 (h hen).2
    exact ⟨r, hr, htr⟩
  · exact ⟨s, by simp [fastStep, hf], rfl⟩

/-- The reset block of `loop` on a state with the trigger raised. -/
theorem lockReset_armed (s : State) (now : Nat) :
    (lockReset (armed s) now).vsyncLockTrigger = false
      ∧ (s.fastCircleEnabled = true →
          (lockReset (armed s) now).currentFastLED = 0
            ∧ (lockReset (armed s) now).lastFastCircleUpdate = now)
      ∧ (s.frameCircleEnabled = true →
          (lockReset (armed s) now).frameCirclePhase = false
            ∧ (lockReset (armed s) now).lastFrameCircleUpdate = now)
      ∧ (lockReset (armed s) now).fastCircleEnabled = s.fastCircleEnabled := by
  cases s
  simp only [lockReset, armed]
  refine ⟨?_, ?_, ?_, ?_⟩
  · split_ifs <;> simp_all
  · intro h; split_ifs <;> simp_all
  · intro h; split_ifs <;> simp_all
  · split_ifs <;> simp_all

/-! ## A full revolution of the fast sweep (C11) -/

theorem sweepTrace_append (a b : List Nat) :
    sweepTrace (a ++ b) = sweepTrace a ++ sweepTrace b := by
  induction a with
  | nil => rfl
  | cons p ps ih => simp [sweepTrace, ih]

theorem sweepPositions_succ (p : Int) (n : Nat) :
    sweepPositions p (n + 1) = sweepPositions p n ++ [((p - (n : Int)) % 12).toNat] := by
  simp [sweepPositions, List.range_succ]

/-- The trace and the position after `n` runs of `handleFastCircle`. -/
theorem fastCircleTicks_trace (s : State) (n : Nat)
    (h0 : 0 ≤ s.currentFastLED) (h1 : s.currentFastLED < 12) :
    fastCircleTicks s n = some { s with
      trace := s.trace ++ sweepTrace (sweepPositions s.currentFastLED n),
      currentFastLED := (s.currentFastLED - (n : Int)) % 12 } := by
  induction n with
  | zero =>
    have e : (s.currentFastLED - ((0 : Nat) : Int)) % 12 = s.currentFastLED := by
      simp only [Nat.cast_zero]; omega
    simp only [fastCircleTicks, sweepPositions, List.range_zero, List.map_nil, sweepTrace,
      List.append_nil, e]
  | succ k ih =>
    have hm0 : 0 ≤ (s.currentFastLED - (k : Int)) % 12 := by omega
    have hm1 : (s.currentFastLED - (k : Int)) % 12 < 12 := by omega
    have e : ((s.currentFastLED - (k : Int)) % 12 - 1) % 12
        = (s.currentFastLED - ((k + 1 : Nat) : Int)) % 12 := by
      push_cast; omega
    simp only [fastCircleTicks, ih, Option.some_bind]
    rw [handleFastCircle_eq _ hm0 hm1]
    simp only [sweepPositions_succ, sweepTrace_append, sweepTrace, sweepBlock,
      List.append_nil, List.append_assoc, e]

theorem fastLitPins_append_fast (a ws : List Event) (b : Bool) :
    fastLitPins b (a ++ Event.enterFastCircle :: ws)
      = fastLitPins b a ++ fastLitPins true ws := by
  induction a generalizing b with
  | nil => simp [fastLitPins]
  | cons e es ih =>
    cases e with
    | digitalWrite pin level =>
      by_cases hc : (b && level) = true <;> simp [fastLitPins, hc, ih]
    | enterFastCircle => simp [fastLitPins, ih]
    | enterFrameCircle => simp [fastLitPins, ih]

theorem fastLitPins_append_frame (a ws : List Event) (b : Bool) :
    fastLitPins b (a ++ Event.enterFrameCircle :: ws)
      = fastLitPins b a ++ fastLitPins false ws := by
  induction a generalizing b with
  | nil => simp [fastLitPins]
  | cons e es ih =>
    cases e with
    | digitalWrite pin level =>
      by_cases hc : (b && level) = true <;> simp [fastLitPins, hc, ih]
    | enterFastCircle => simp [fastLitPins, ih]
    | enterFrameCircle => simp [fastLitPins, ih]

/-- One run of `handleFastCircle` at position `p` adds the pin of `p`, and
nothing else, to the pins lit by the fast sweep. -/
theorem fastLitPins_sweepBlock (tr : List Event) (p : Nat) (b : Bool) :
    fastLitPins b (tr ++ [Event.enterFastCircle]
        ++ LED_PINS.map (fun pin => Event.digitalWrite pin LOW)
        ++ [Event.digitalWrite (LED_PINS.getD p 0) HIGH])
      = fastLitPins b tr ++ [LED_PINS.getD p 0] := by
  have e : tr ++ [Event.enterFastCircle]
        ++ LED_PINS.map (fun pin => Event.digitalWrite pin LOW)
        ++ [Event.digitalWrite (LED_PINS.getD p 0) HIGH]
      = tr ++ Event.enterFastCircle :: (LED_PINS.map (fun pin => Event.digitalWrite pin LOW)
        ++ [Event.digitalWrite (LED_PINS.getD p 0) HIGH]) := by simp
  rw [e, fastLitPins_append_fast]
  simp [fastLitPins, LED_PINS, HIGH, LOW]

/-- One run of `handleFrameCircle` adds nothing to the pins lit by the fast
sweep. -/
theorem fastLitPins_handleFrameCircle (s : State) (b : Bool) :
    fastLitPins b (handleFrameCircle s).trace = fastLitPins b s.trace := by
  rw [handleFrameCircle_eq]
  have e : ∀ ws, s.trace ++ [Event.enterFrameCircle, Event.digitalWrite 13 LOW,
          Event.digitalWrite 32 LOW, Event.digitalWrite 26 LOW, Event.digitalWrite 18 LOW]
        ++ ws = s.trace ++ Event.enterFrameCircle :: ([Event.digitalWrite 13 LOW,
          Event.digitalWrite 32 LOW, Event.digitalWrite 26 LOW, Event.digitalWrite 18 LOW]
        ++ ws) := by intro ws; simp
  simp only [List.append_assoc] at e ⊢
  rw [e, fastLitPins_append_frame]
  cases s.frameCirclePhase <;> cases s.d4OutputEnabled <;> simp [fastLitPins]

/-- The frame-circle block of `loop` touches nothing the fast sweep reads or
writes. -/
theorem frameStep_fast_side (s : State) (now : Nat) :
    (frameStep s now).fastCircleEnabled = s.fastCircleEnabled
      ∧ (frameStep s now).fastCircleInterval = s.fastCircleInterval
      ∧ (frameStep s now).lastFastCircleUpdate = s.lastFastCircleUpdate
      ∧ fastLitPins false (frameStep s now).trace = fastLitPins false s.trace := by
  have hl := fastLitPins_handleFrameCircle s false
  unfold frameStep
  by_cases hg : frameDue s now = true
  · simp only [hg, if_true]
    rw [handleFrameCircle_eq] at hl ⊢
    exact ⟨rfl, rfl, rfl, hl⟩
  · simp [hg]

/-- One iteration of `loop` seen from the fast sweep, with no lock trigger
pending and the position in the ring. -/
theorem loop_fast_spec (s : State) (now : Nat) (ht : s.vsyncLockTrigger = false)
    (h0 : 0 ≤ s.currentFastLED) (h1 : s.currentFastLED < 12) :
    ∃ r, loop s now = some r
      ∧ r.vsyncLockTrigger = false
      ∧ r.fastCircleEnabled = s.fastCircleEnabled
      ∧ r.fastCircleInterval = s.fastCircleInterval
      ∧ r.lastFastCircleUpdate = (if fastDue s now then now else s.lastFastCircleUpdate)
      ∧ r.currentFastLED
          = (if fastDue s now then (s.currentFastLED - 1) % 12 else s.currentFastLED)
      ∧ fastCalls r.trace = fastCalls s.trace + (if fastDue s now then 1 else 0)
      ∧ fastLitPins false r.trace = fastLitPins false s.trace
          ++ (if fastDue s now then [LED_PINS.getD s.currentFastLED.toNat 0] else []) := by
  have hb := fastLitPins_sweepBlock s.trace s.currentFastLED.toNat false
  have hc := (fast_trace s.trace s.currentFastLED.toNat).1
  have key : ∃ m, fastStep s now = some m
      ∧ m.vsyncLockTrigger = false
      ∧ m.fastCircleEnabled = s.fastCircleEnabled
      ∧ m.fastCircleInterval = s.fastCircleInterval
      ∧ m.lastFastCircleUpdate = (if fastDue s now then now else s.lastFastCircleUpdate)
      ∧ m.currentFastLED
          = (if fastDue s now then (s.currentFastLED - 1) % 12 else s.currentFastLED)
      ∧ fastCalls m.trace = fastCalls s.trace + (if fastDue s now then 1 else 0)
      ∧ fastLitPins false m.trace = fastLitPins false s.trace
          ++ (if fastDue s now then [LED_PINS.getD s.currentFastLED.toNat 0] else []) := by
    rw [fastStep_eq s now h0 h1]
    by_cases hf : fastDue s now = true
    · simp only [hf, if_true]
      exact ⟨_, rfl, ht, rfl, rfl, rfl, rfl, hc, hb⟩
    · simp only [hf, if_false]
      refine ⟨_, rfl, ht, rfl, rfl, rfl, rfl, rfl, ?_⟩
      simp
  obtain ⟨m, hm, k1, k2, k3, k4, k5, k6, k7⟩ := key
  obtain ⟨f1, f2, f3, f4⟩ := frameStep_fast_side m now
  obtain ⟨g1, g2, -, -, -, -, -, -, g9, -⟩ := frameStep_spec m now
  refine ⟨frameStep m now, ?_, ?_, ?_, ?_, ?_, ?_, ?_, ?_⟩
  · simp only [loop, lockReset_idle s now ht, hm, Option.map_some']
  · rw [g1, k1]
  · rw [f1, k2]
  · rw [f2, k3]
  · rw [f3, k4]
  · rw [g2, k5]
  · rw [g9, k6]
  · rw [f4, k7]

/-- The fast sweep with interval 1 after `n` polls at `t0 + 1, ..., t0 + n`,
last tick stamped at `t0`, no lock trigger pending: every poll returns and
ticks, so the position has gone down `n` steps modulo 12 and the pins of the
positions passed have been lit in that order. -/
theorem pollEach_fast (s : State) (t0 : Nat)
    (hint : s.fastCircleInterval = 1) (hen : s.fastCircleEnabled = true)
    (ht : s.vsyncLockTrigger = false)
    (h0 : 0 ≤ s.currentFastLED) (h1 : s.currentFastLED < 12)
    (hlast : s.lastFastCircleUpdate = t0 % W) (n : Nat) :
    ∃ r, pollEach s t0 n = some r
      ∧ r.vsyncLockTrigger = false
      ∧ r.fastCircleEnabled = true ∧ r.fastCircleInterval = 1
      ∧ r.lastFastCircleUpdate = (t0 + n) % W
      ∧ r.currentFastLED = (s.currentFastLED - (n : Int)) % 12
      ∧ fastCalls r.trace = fastCalls s.trace + n
      ∧ fastLitPins false r.trace = fastLitPins false s.trace
          ++ (sweepPositions s.currentFastLED n).map (fun p => LED_PINS.getD p 0) := by
  induction n with
  | zero =>
    refine ⟨s, rfl, ht, hen, hint, hlast, ?_, rfl, ?_⟩
    · simp only [Nat.cast_zero]; omega
    · simp [sweepPositions]
  | succ n ih =>
    obtain ⟨r, hr, i1, i2, i3, i4, i5, i6, i7⟩ := ih
    have hm0 : 0 ≤ r.currentFastLED := by rw [i5]; omega
    have hm1 : r.currentFastLED < 12 := by rw [i5]; omega
    obtain ⟨r2, hr2, j1, j2, j3, j4, j5, j6, j7⟩ :=
      loop_fast_spec r ((t0 + (n + 1)) % W) i1 hm0 hm1
    have hel : usub ((t0 + (n + 1)) % W) r.lastFastCircleUpdate = 1 := by
      rw [i4, ← Nat.add_assoc, usub_mod_mod]; rfl
    have hdue : fastDue r ((t0 + (n + 1)) % W) = true := by
      simp [fastDue, i2, i3, hel]
    rw [hdue] at j4 j5 j6 j7
    simp only [if_true] at j4 j5 j6 j7
    refine ⟨r2, ?_, j1, ?_, ?_, j4, ?_, ?_, ?_⟩
    · simp only [pollEach, hr, Option.some_bind, hr2]
    · rw [j2, i2]
    · rw [j3, i3]
    · rw [j5, i5]; push_cast; omega
    · rw [j6, i6]; omega
    · rw [j7, i7, i5, sweepPositions_succ]
      simp

/-- C11: with `fastCircleInterval = 1`, the fast sweep enabled and
`currentFastLED = 0`, twelve fast ticks in a row light the positions
0, 11, 10, ..., 1 in that order, each tick writing `LOW` to all twelve LEDs and
then `HIGH` to the LED of the position it found, and leave `currentFastLED = 0`;
this holds for twelve runs of `handleFastCircle` and for the twelve iterations
of `loop` polled at t0 + 1, ..., t0 + 12 after a tick stamped at t0 with no
lock trigger pending; the twelve positions are each lit once. -/
theorem fast_sweep_full_revolution (s : State) (t0 : Nat)
    (hint : s.fastCircleInterval = 1) (hen : s.fastCircleEnabled = true)
    (hcur : s.currentFastLED = 0) (ht : s.vsyncLockTrigger = false)
    (hlast : s.lastFastCircleUpdate = t0) (ht0 : t0 < W) :
    fastCircleTicks s 12 = some { s with
        trace := s.trace ++ sweepTrace [0, 11, 10, 9, 8, 7, 6, 5, 4, 3, 2, 1],
        currentFastLED := 0 }
      ∧ (∃ r, pollEach s t0 12 = some r
          ∧ fastCalls r.trace = fastCalls s.trace + 12
          ∧ fastLitPositions r.trace
              = fastLitPositions s.trace ++ [0, 11, 10, 9, 8, 7, 6, 5, 4, 3, 2, 1]
          ∧ r.currentFastLED = 0)
      ∧ List.Perm [0, 11, 10, 9, 8, 7, 6, 5, 4, 3, 2, 1] (List.range 12) := by
  have h0 : 0 ≤ s.currentFastLED := by rw [hcur]
  have h1 : s.currentFastLED < 12 := by rw [hcur]; decide
  have hpos : sweepPositions 0 12 = [0, 11, 10, 9, 8, 7, 6, 5, 4, 3, 2, 1] := by decide
  refine ⟨?_, ?_, by decide⟩
  · rw [fastCircleTicks_trace s 12 h0 h1, hcur, hpos]
    rfl
  · obtain ⟨r, hr, -, -, -, -, i5, i6, i7⟩ := pollEach_fast s t0 hint hen ht h0 h1
      (by rw [Nat.mod_eq_of_lt ht0]; exact hlast) 12
    rw [hcur] at i5 i7
    rw [hpos] at i7
    refine ⟨r, hr, i6, ?_, ?_⟩
    · simp only [fastLitPositions, i7, List.map_append]
      rfl
    · rw [i5]; rfl

/-- C11 on the start-up state (interval 1, sweep enabled, position 0, stamp 0). -/
theorem fast_sweep_full_revolution_witness :
    fastCircleTicks initState 12 = some { initState with
        trace := initState.trace ++ sweepTrace [0, 11, 10, 9, 8, 7, 6, 5, 4, 3, 2, 1],
        currentFastLED := 0 }
      ∧ (∃ r, pollEach initState 0 12 = some r
          ∧ fastCalls r.trace = fastCalls initState.trace + 12
          ∧ fastLitPositions r.trace
              = fastLitPositions initState.trace ++ [0, 11, 10, 9, 8, 7, 6, 5, 4, 3, 2, 1]
          ∧ r.currentFastLED = 0) :=
  ⟨(fast_sweep_full_revolution initState 0 rfl rfl rfl rfl rfl (by decide)).1,
   (fast_sweep_full_revolution initState 0 rfl rfl rfl rfl rfl (by decide)).2.1⟩

/-! ## The lock trigger does not queue (C12): the iteration of `loop` -/

/-- The fields of the state after the reset block of `loop` has run on a
raised trigger. -/
theorem lockReset_armed_fields (s : State) (now : Nat) :
    (lockReset (armed s) now).fastCircleEnabled = s.fastCircleEnabled
      ∧ (lockReset (armed s) now).frameCircleEnabled = s.frameCircleEnabled
      ∧ (lockReset (armed s) now).fastCircleInterval = s.fastCircleInterval
      ∧ (lockReset (armed s) now).frameInterval = s.frameInterval
      ∧ (lockReset (armed s) now).trace = s.trace
      ∧ (s.fastCircleEnabled = false →
          (lockReset (armed s) now).currentFastLED = s.currentFastLED
            ∧ (lockReset (armed s) now).lastFastCircleUpdate = s.lastFastCircleUpdate)
      ∧ (s.frameCircleEnabled = false →
          (lockReset (armed s) now).frameCirclePhase = s.frameCirclePhase
            ∧ (lockReset (armed s) now).lastFrameCircleUpdate
                = s.lastFrameCircleUpdate) := by
  cases s
  simp only [lockReset, armed]
  refine ⟨?_, ?_, ?_, ?_, ?_, ?_, ?_⟩
  · split_ifs <;> simp_all
  · split_ifs <;> simp_all
  · split_ifs <;> simp_all
  · split_ifs <;> simp_all
  · split_ifs <;> simp_all
  · intro h; split_ifs <;> simp_all
  · intro h; split_ifs <;> simp_all

/-- One iteration of `loop` with no lock trigger pending, where the position
need only be in the ring when the fast sweep is enabled: it returns, and each
sequencer ticks exactly when its own elapsed-time test holds on entry. -/
theorem loop_seq_spec (a : State) (now : Nat) (ht : a.vsyncLockTrigger = false)
    (hrange : a.fastCircleEnabled = true → 0 ≤ a.currentFastLED ∧ a.currentFastLED < 12) :
    ∃ r, loop a now = some r
      ∧ r.vsyncLockTrigger = false
      ∧ r.lastFastCircleUpdate = (if fastDue a now then now else a.lastFastCircleUpdate)
      ∧ r.currentFastLED
          = (if fastDue a now then (a.currentFastLED - 1) % 12 else a.currentFastLED)
      ∧ fastCalls r.trace = fastCalls a.trace + (if fastDue a now then 1 else 0)
      ∧ r.lastFrameCircleUpdate
          = (if frameDue a now then now else a.lastFrameCircleUpdate)
      ∧ r.frameCirclePhase
          = (if frameDue a now then !a.frameCirclePhase else a.frameCirclePhase)
      ∧ frameCalls r.trace = frameCalls a.trace + (if frameDue a now then 1 else 0) := by
  by_cases hen : a.fastCircleEnabled = true
  · obtain ⟨r, hr, p1, -, -, -, -, -, p8, p9, p10, -, -⟩ :=
      loop_spec a now ht (hrange hen).1 (hrange hen).2
    obtain ⟨r2, hr2, -, -, -, q5, q6, q7, -⟩ :=
      loop_fast_spec a now ht (hrange hen).1 (hrange hen).2
    have e : r2 = r := Option.some.inj (hr2.symm.trans hr)
    subst e
    exact ⟨r2, hr, p1, q5, q6, q7, p8, p9, p10⟩
  · have hfd : fastDue a now = false := by
      simp only [fastDue, Bool.and_eq_false_iff]
      left
      simpa using hen
    obtain ⟨g1, g2, -, -, -, g6, g7, g8, g9, -⟩ := frameStep_spec a now
    obtain ⟨-, -, f3, -⟩ := frameStep_fast_side a now
    refine ⟨frameStep a now, ?_, ?_, ?_, ?_, ?_, g6, g7, g8⟩
    · simp [loop, lockReset_idle a now ht, fastStep, hfd]
    · rw [g1, ht]
    · rw [f3]; simp [hfd]
    · rw [g2]; simp [hfd]
    · rw [g9]; simp [hfd]

/-- The iteration of `loop` that finds the trigger raised: it returns with the
trigger cleared; an enabled sequencer is restarted from its start position with
its stamp at the clock reading (and then ticks at once only if its interval is
0), a disabled one keeps its position and stamp. -/
theorem loop_armed (s : State) (now : Nat) :
    ∃ r, loop (armed s) now = some r
      ∧ r.vsyncLockTrigger = false
      ∧ (s.fastCircleEnabled = true →
          r.lastFastCircleUpdate = now
            ∧ r.currentFastLED = (if s.fastCircleInterval = 0 then 11 else 0)
            ∧ fastCalls r.trace
                = fastCalls s.trace + (if s.fastCircleInterval = 0 then 1 else 0))
      ∧ (s.fastCircleEnabled = false →
          r.lastFastCircleUpdate = s.lastFastCircleUpdate
            ∧ r.currentFastLED = s.currentFastLED
            ∧ fastCalls r.trace = fastCalls s.trace)
      ∧ (s.frameCircleEnabled = true →
          r.lastFrameCircleUpdate = now
            ∧ r.frameCirclePhase = decide (s.frameInterval = 0)
            ∧ frameCalls r.trace
                = frameCalls s.trace + (if s.frameInterval = 0 then 1 else 0))
      ∧ (s.frameCircleEnabled = false →
          r.lastFrameCircleUpdate = s.lastFrameCircleUpdate
            ∧ r.frameCirclePhase = s.frameCirclePhase
            ∧ frameCalls r.trace = frameCalls s.trace) := by
  obtain ⟨a1, a2, a3, -⟩ := lockReset_armed s now
  obtain ⟨b1, b2, b3, b4, b5, b6, b7⟩ := lockReset_armed_fields s now
  have hl : loop (armed s) now = loop (lockReset (armed s) now) now := by
    simp only [loop, lockReset_idle (lockReset (armed s) now) now a1]
  obtain ⟨r, hr, c1, c2, c3, c4, c5, c6, c7⟩ :=
    loop_seq_spec (lockReset (armed s) now) now a1 (by
      intro hen
      rw [b1] at hen
      rw [(a2 hen).1]
      exact ⟨le_refl 0, by decide⟩)
  rw [b5] at c4 c7
  refine ⟨r, hl.trans hr, c1, ?_, ?_, ?_, ?_⟩
  · intro hen
    have hd : fastDue (lockReset (armed s) now) now = decide (s.fastCircleInterval = 0) := by
      simp [fastDue, b1, b3, hen, (a2 hen).2, usub_self]
    rw [hd, (a2 hen).2] at c2
    rw [hd, (a2 hen).1] at c3
    rw [hd] at c4
    by_cases hz : s.fastCircleInterval = 0
    · simp only [hz, decide_True, if_true] at c2 c3 c4 ⊢
      exact ⟨c2, c3, c4⟩
    · simp only [hz, decide_False, if_false] at c2 c3 c4 ⊢
      exact ⟨c2, c3, c4⟩
  · intro hen
    have hd : fastDue (lockReset (armed s) now) now = false := by
      simp [fastDue, b1, hen]
    rw [hd, (b6 hen).2] at c2
    rw [hd, (b6 hen).1] at c3
    rw [hd] at c4
    exact ⟨by simpa using c2, by simpa using c3, by simpa using c4⟩
  · intro hen
    have hd : frameDue (lockReset (armed s) now) now = decide (s.frameInterval = 0) := by
      simp [frameDue, b2, b4, hen, (a3 hen).2, usub_self]
    rw [hd, (a3 hen).2] at c5
    rw [hd, (a3 hen).1] at c6
    rw [hd] at c7
    by_cases hz : s.frameInterval = 0
    · simp only [hz, decide_True, if_true] at c5 c6 c7 ⊢
      exact ⟨c5, by simpa using c6, c7⟩
    · simp only [hz, decide_False, if_false] at c5 c6 c7 ⊢
      exact ⟨c5, by simpa using c6, c7⟩
  · intro hen
    have hd : frameDue (lockReset (armed s) now) now = false := by
      simp [frameDue, b2, hen]
    rw [hd, (b7 hen).2] at c5
    rw [hd, (b7 hen).1] at c6
    rw [hd] at c7
    exact ⟨by simpa using c5, by simpa using c6, by simpa using c7⟩

/-- C12: with lock-to-sync and sync detection enabled, k ≥ 1 active edges
processed before the next iteration of `loop` leave `vsyncLockTrigger` as a
single edge leaves it (raised).  That iteration returns with the flag cleared
and one reset done: an enabled fast sweep has its stamp at the clock reading
and its position at 0 (at 11, after one tick, only if its interval is 0), an
enabled frame sequencer has its stamp at the clock reading and its phase at
PairA (PairB, after one tick, only if its interval is 0), a disabled sequencer
keeps position, phase and stamp; the result is the result after a single edge
apart from the measurement fields.  A following iteration with no new edge
performs no reset: its reset block changes nothing and it is the two sequencer
blocks alone. -/
theorem lock_trigger_no_queue (s : State) (t : Nat) (ts : List Nat) (now now2 : Nat)
    (hlock : s.vsyncLockEnabled = true) (hdet : s.vsyncDetectionEnabled = true) :
    (vsyncEdges s (lows (t :: ts))).vsyncLockTrigger = (vsyncISR s t LOW).vsyncLockTrigger
      ∧ (vsyncISR s t LOW).vsyncLockTrigger = true
      ∧ (∃ x y z, loop (vsyncEdges s (lows (t :: ts))) now
          = (loop (vsyncISR s t LOW) now).map (fun r => withMeasurement r x y z))
      ∧ (∃ r, loop (vsyncEdges s (lows (t :: ts))) now = some r
          ∧ r.vsyncLockTrigger = false
          ∧ (s.fastCircleEnabled = true →
              r.lastFastCircleUpdate = now
                ∧ r.currentFastLED = (if s.fastCircleInterval = 0 then 11 else 0)
                ∧ fastCalls r.trace
                    = fastCalls s.trace + (if s.fastCircleInterval = 0 then 1 else 0))
          ∧ (s.fastCircleEnabled = false →
              r.lastFastCircleUpdate = s.lastFastCircleUpdate
                ∧ r.currentFastLED = s.currentFastLED
                ∧ fastCalls r.trace = fastCalls s.trace)
          ∧ (s.frameCircleEnabled = true →
              r.lastFrameCircleUpdate = now
                ∧ r.frameCirclePhase = decide (s.frameInterval = 0)
                ∧ frameCalls r.trace
                    = frameCalls s.trace + (if s.frameInterval = 0 then 1 else 0))
          ∧ (s.frameCircleEnabled = false →
              r.lastFrameCircleUpdate = s.lastFrameCircleUpdate
                ∧ r.frameCirclePhase = s.frameCirclePhase
                ∧ frameCalls r.trace = frameCalls s.trace)
          ∧ lockReset r now2 = r
          ∧ loop r now2 = (fastStep r now2).map (fun m => frameStep m now2))
      ∧ (lockReset (vsyncEdges s (lows (t :: ts))) now).vsyncLockTrigger = false
      ∧ (s.fastCircleEnabled = true →
          (lockReset (vsyncEdges s (lows (t :: ts))) now).currentFastLED = 0
            ∧ (lockReset (vsyncEdges s (lows (t :: ts))) now).lastFastCircleUpdate = now)
      ∧ (s.frameCircleEnabled = true →
          (lockReset (vsyncEdges s (lows (t :: ts))) now).frameCirclePhase = false
            ∧ (lockReset (vsyncEdges s (lows (t :: ts))) now).lastFrameCircleUpdate
                = now) := by
  obtain ⟨x1, y1, z1, h1⟩ := vsyncISR_low_armed s t hdet hlock
  obtain ⟨xk, yk, zk, hk⟩ := vsyncEdges_lows_armed ts s t hdet hlock
  obtain ⟨a1, a2, a3, a4⟩ := lockReset_armed s now
  obtain ⟨r0, hr0, hr0t, d1, d2, d3, d4⟩ := loop_armed s now
  refine ⟨?_, ?_, ?_, ?_, ?_, ?_, ?_⟩
  · rw [hk, h1]; rfl
  · rw [h1]; rfl
  · refine ⟨xk, yk, zk, ?_⟩
    rw [hk, h1, loop_withMeasurement, loop_withMeasurement, hr0]
    rfl
  · refine ⟨withMeasurement r0 xk yk zk, ?_, hr0t, d1, d2, d3, d4, ?_, ?_⟩
    · rw [hk, loop_withMeasurement, hr0]; rfl
    · exact lockReset_idle _ now2 hr0t
    · have hid : lockReset (withMeasurement r0 xk yk zk) now2
          = withMeasurement r0 xk yk zk := lockReset_idle _ now2 hr0t
      simp only [loop, hid]
  · rw [hk, lockReset_withMeasurement]; exact a1
  · intro hen
    rw [hk, lockReset_withMeasurement]
    exact a2 hen
  · intro hen
    rw [hk, lockReset_withMeasurement]
    exact a3 hen

/-- C12 on `lockedState` (position 7, phase PairB, intervals 1 and 20) with
three active edges at 1000, 2000 and 3000 before the iteration at 5: that
iteration returns with the flag cleared, position 0, phase PairA and both
stamps at 5, and the reset block of the iteration at 6 changes nothing. -/
theorem lock_trigger_no_queue_witness :
    (vsyncEdges lockedState (lows [1000, 2000, 3000])).vsyncLockTrigger = true
      ∧ (∃ r, loop (vsyncEdges lockedState (lows [1000, 2000, 3000])) 5 = some r
          ∧ r.vsyncLockTrigger = false
          ∧ r.lastFastCircleUpdate = 5 ∧ r.currentFastLED = 0
          ∧ r.lastFrameCircleUpdate = 5 ∧ r.frameCirclePhase = false
          ∧ lockReset r 6 = r) := by
  have h := lock_trigger_no_queue lockedState 1000 [2000, 3000] 5 6 rfl rfl
  obtain ⟨r, hr, ht, hfa, -, hfr, -, hlr, -⟩ := h.2.2.2.1
  exact ⟨h.1.trans h.2.1, r, hr, ht, (hfa rfl).1, (hfa rfl).2.1, (hfr rfl).1,
    (hfr rfl).2.1, hlr⟩

end LedSync
